import Mathlib

/-!
Verification development for the `appmanager` reconciliation engine of
`k8s-bigip-ctlr` (file `pkg/appmanager/appManager.go`).

The Go code is shallowly embedded: Go structs become Lean structures, Go
maps become association lists, Go slices become Lean lists (a `nil` slice
and an empty slice are identified), `reflect.DeepEqual` becomes decidable
structural equality, and external I/O (Kubernetes API calls, the
filesystem, the config writer) is modelled by explicit function parameters
and by boolean observations returned alongside the new state.
Machine integers (`int32`) stay well inside their range in every scenario
considered here and are modelled by `Int`.
-/

set_option autoImplicit false

namespace AppMgr

/-- Member is one backend pool member (`{address, port, session}`). -/
structure Member where
  address : String
  port : Int
  session : String
  deriving DecidableEq, Repr

/-- Pool is a named bag of members bound to a service and port. -/
structure Pool where
  name : String
  serviceName : String
  servicePort : Int
  members : List Member
  deriving DecidableEq, Repr

/-- MetaData carries the activation flag, node port and resource type of a
`ResourceConfig`. -/
structure MetaData where
  active : Bool
  nodePort : Int
  resourceType : String
  deriving DecidableEq, Repr

/-- VirtualAddress is the frontend bind address and port. -/
structure VirtualAddress where
  bindAddr : String
  port : Int
  deriving DecidableEq, Repr

/-- ProfileRef names a profile together with its partition and context. -/
structure ProfileRef where
  name : String
  partition : String
  context : String
  deriving DecidableEq, Repr

/-- CustomProfile is TLS material materialized from a Secret or inline
certificate (spec section 3). -/
structure CustomProfile where
  name : String
  partition : String
  context : String
  cert : String
  key : String
  serverName : String
  deriving DecidableEq, Repr

/-- Policy is kept abstract: the claims under study never inspect rules, but
policies take part in deep-equality comparisons.  Modelled from the spec:
ordered list of named rules. -/
structure Policy where
  name : String
  partition : String
  rules : List String
  deriving DecidableEq, Repr

/-- Virtual is the frontend part of a `ResourceConfig`: name, partition,
bind address, SSL profile names, iRules and profile references.  Modelled
from the spec (section 3); the Go struct lives outside the provided source
file. -/
structure Virtual where
  virtualServerName : String
  partition : String
  virtualAddress : Option VirtualAddress
  sslProfileNames : List String
  iRules : List String
  profiles : List ProfileRef
  iApp : String
  deriving DecidableEq, Repr

/-- ResourceConfig is the canonical internal representation of one virtual
server. -/
structure ResourceConfig where
  virtual : Virtual
  pools : List Pool
  policies : List Policy
  monitors : List String
  metaData : MetaData
  deriving DecidableEq, Repr

/-- ServiceKey identifies a backend (`{serviceName, servicePort, namespace}`). -/
structure serviceKey where
  serviceName : String
  servicePort : Int
  Namespace : String
  deriving DecidableEq, Repr

/-- ServiceQueueKey is the reconciliation unit (`{namespace, serviceName}`). -/
structure serviceQueueKey where
  Namespace : String
  serviceName : String
  deriving DecidableEq, Repr

/-- SecretKey scopes TLS profile entries by owning resource. -/
structure secretKey where
  name : String
  Namespace : String
  resourceName : String
  deriving DecidableEq, Repr

/-- NameRef keys iRules and data groups by name and partition. -/
structure nameRef where
  name : String
  partition : String
  deriving DecidableEq, Repr

/-- IRule is a named script fragment held in the iRules registry. -/
structure IRule where
  name : String
  partition : String
  code : String
  deriving DecidableEq, Repr

/-- PortStruct pairs a protocol tag with a port (source `portStruct`). -/
structure portStruct where
  protocol : String
  port : Int
  deriving DecidableEq, Repr

/-- VsSyncStats holds the five counters accumulated by the sub-syncs. -/
structure vsSyncStats where
  vsFound : Nat
  vsUpdated : Nat
  vsDeleted : Nat
  cpUpdated : Nat
  dgUpdated : Nat
  deriving DecidableEq, Repr

/-- Default BIG-IP partition.  Defined outside the provided source file; the
concrete value is irrelevant to every claim. -/
def DEFAULT_PARTITION : String := "velcro"

/-- Default HTTP port (80). -/
def DEFAULT_HTTP_PORT : Int := 80

/-- Default HTTPS port (443). -/
def DEFAULT_HTTPS_PORT : Int := 443

/-- Client SSL profile context tag. -/
def customProfileClient : String := "clientside"

/-- Server SSL profile context tag. -/
def customProfileServer : String := "serverside"

/-- Name of the HTTP redirect iRule (`http_redirect_irule`). -/
def httpRedirectIRuleName : String := "http_redirect_irule"

/-- Lookup in an association list, mirroring a Go map read (first match). -/
def alLookup {K V : Type} [DecidableEq K] (l : List (K × V)) (k : K) : Option V :=
  match l with
  | [] => none
  | (k₀, v₀) :: rest => if k₀ = k then some v₀ else alLookup rest k

/-- Replace every binding of `k` in an association list (helper for
`alInsert`). -/
def alReplace {K V : Type} [DecidableEq K] :
    List (K × V) → K → V → List (K × V)
  | [], _, _ => []
  | (k₀, v₀) :: rest, k, v =>
      if k₀ = k then (k, v) :: alReplace rest k v
      else (k₀, v₀) :: alReplace rest k v

/-- Insert-or-replace in an association list, mirroring a Go map write. -/
def alInsert {K V : Type} [DecidableEq K] (l : List (K × V)) (k : K) (v : V) :
    List (K × V) :=
  if l.any (fun e => e.1 = k) then alReplace l k v
  else l ++ [(k, v)]

/-- Remove a key from an association list, mirroring Go `delete`. -/
def alErase {K V : Type} [DecidableEq K] (l : List (K × V)) (k : K) :
    List (K × V) :=
  l.filter (fun e => ¬ (e.1 = k))

/-- Go `strconv.ParseBool`: the exact set of accepted strings; anything else
is a parse error, modelled as `none`. -/
def goParseBool (s : String) : Option Bool :=
  if s = "1" ∨ s = "t" ∨ s = "T" ∨ s = "TRUE" ∨ s = "true" ∨ s = "True" then
    some true
  else if s = "0" ∨ s = "f" ∨ s = "F" ∨ s = "FALSE" ∨ s = "false" ∨ s = "False" then
    some false
  else none

/-- Go `strconv.ParseInt(s, 10, 32)` followed by `int32(p)` with the error
discarded, as the source does for the port annotations: a syntax error
yields 0, a range error yields the clamped extreme. -/
def goParseInt32 (s : String) : Int :=
  let parsed : Option Int :=
    if s.startsWith "+" then (s.drop 1).toNat?.map (Int.ofNat)
    else s.toInt?
  match parsed with
  | none => 0
  | some v =>
      if v > 2147483647 then 2147483647
      else if v < -2147483648 then -2147483648
      else v

/-- Source `getBooleanAnnotation`: missing or unparsable values fall back to
the default. -/
def getBooleanAnnotation (annotations : List (String × String)) (key : String)
    (defaultValue : Bool) : Bool :=
  match alLookup annotations key with
  | none => defaultValue
  | some val =>
      match goParseBool val with
      | none => defaultValue
      | some b => b

/-- Resource store: the guarded mapping `(serviceKey, resourceName) →
ResourceConfig`.  Modelled from the spec (section 2, "Resource store"); the
Go `Resources` type lives outside the provided source file. -/
abbrev Resources : Type := List ((serviceKey × String) × ResourceConfig)

/-- Store lookup (`Resources.Get`).  Modelled from the spec. -/
def rGet (rs : Resources) (k : serviceKey) (name : String) :
    Option ResourceConfig :=
  alLookup rs (k, name)

/-- Store insert-or-replace (`Resources.Assign`).  Modelled from the spec. -/
def rAssign (rs : Resources) (k : serviceKey) (name : String)
    (cfg : ResourceConfig) : Resources :=
  alInsert rs (k, name) cfg

/-- Reverse lookup by resource name (`Resources.GetAllWithName`): every
stored copy of the resource name, with its service key.  Modelled from the
spec (section 2, index for reverse lookup by resource name). -/
def rGetAllWithName (rs : Resources) (name : String) :
    List (ResourceConfig × serviceKey) :=
  rs.filterMap (fun e => if e.1.2 = name then some (e.2, e.1.1) else none)

/-- Custom profile store: mapping `secretKey → CustomProfile`. -/
abbrev CustomProfileStore : Type := List (secretKey × CustomProfile)

/-- Manager state: the mutable fields of the Go `Manager` that the claims
under study read or write. -/
structure ManagerState where
  resources : Resources
  customProfiles : CustomProfileStore
  irulesMap : List (nameRef × IRule)
  oldNodes : List String
  isNodePort : Bool
  useNodeInternal : Bool
  initialState : Bool
  deriving DecidableEq, Repr

/-- Source `NewCustomProfile` (defined outside the provided file): a custom
profile built from a profile reference and a certificate.  Modelled from
the spec (section 3, `CustomProfile`). -/
def NewCustomProfile (profile : ProfileRef) (cert : String) : CustomProfile :=
  { name := profile.name
    partition := profile.partition
    context := profile.context
    cert := cert
    key := ""
    serverName := "" }

/-- Source `Virtual.AddFrontendSslProfileName` (defined outside the provided
file).  Modelled from the spec: record the frontend SSL profile name,
ignoring duplicates. -/
def Virtual.addSslProfileName (v : Virtual) (name : String) : Virtual :=
  if v.sslProfileNames.contains name then v
  else { v with sslProfileNames := v.sslProfileNames ++ [name] }

/-- Source `Virtual.RemoveFrontendSslProfileName` (defined outside the
provided file).  Modelled from the spec: drop the name from the list. -/
def Virtual.removeSslProfileName (v : Virtual) (name : String) : Virtual :=
  { v with sslProfileNames := v.sslProfileNames.filter (fun n => ¬ (n = name)) }

/-- Source `Virtual.AddOrUpdateProfile` (defined outside the provided file).
Modelled from the spec: profiles are keyed by name and partition. -/
def Virtual.addOrUpdateProfile (v : Virtual) (p : ProfileRef) : Virtual :=
  if v.profiles.any (fun q => q.name = p.name ∧ q.partition = p.partition) then
    let updated := v.profiles.map
      (fun q => if q.name = p.name ∧ q.partition = p.partition then p else q)
    { v with profiles := updated }
  else { v with profiles := v.profiles ++ [p] }

/-- Source `Virtual.AddIRule` (defined outside the provided file).  Modelled
from the spec: record the iRule reference, ignoring duplicates. -/
def Virtual.addIRuleRef (v : Virtual) (name : String) : Virtual :=
  if v.iRules.contains name then v
  else { v with iRules := v.iRules ++ [name] }

/-- Source `httpRedirectIRule(port)` (defined outside the provided file).
Modelled from the spec: the canonical redirect rule parameterized by the
HTTPS port; the exact script text is irrelevant to the claims. -/
def httpRedirectIRule (port : Int) : String :=
  "http-redirect-to-" ++ toString port

/-- Source `Manager.addIRule`: register a named iRule in the registry. -/
def addIRule (st : ManagerState) (name partition rule : String) : ManagerState :=
  let key : nameRef := { name := name, partition := partition }
  let value : IRule := { name := name, partition := partition, code := rule }
  { st with irulesMap := alInsert st.irulesMap key value }

/-- Emission gate at the end of source `syncVirtualServer` (lines 858-867):
write the configuration when one of the four checked counters is positive,
otherwise only when both work queues are empty and the initial-state flag
is unset. -/
def syncVirtualServerEmitGate (stats : vsSyncStats) (vsQueueLen nsQueueLen : Nat)
    (initialState : Bool) : Bool :=
  if stats.vsUpdated > 0 ∨ stats.vsDeleted > 0 ∨ stats.cpUpdated > 0 ∨
      stats.dgUpdated > 0 then
    true
  else if vsQueueLen = 0 ∧ nsQueueLen = 0 then
    ¬ initialState
  else false

/-- Claim C1's emission condition, written from the claim's words: emit iff
one of the five accumulated counters (including `vsFound`) is non-zero, or
else both queues are empty and the initial-state flag is false. -/
def claimC1EmitCondition (stats : vsSyncStats) (vsQueueLen nsQueueLen : Nat)
    (initialState : Bool) : Prop :=
  (stats.vsFound > 0 ∨ stats.vsUpdated > 0 ∨ stats.vsDeleted > 0 ∨
    stats.cpUpdated > 0 ∨ stats.dgUpdated > 0) ∨
  (vsQueueLen = 0 ∧ nsQueueLen = 0 ∧ initialState = false)

instance (stats : vsSyncStats) (v n : Nat) (i : Bool) :
    Decidable (claimC1EmitCondition stats v n i) := by
  unfold claimC1EmitCondition; infer_instance

/-- Secret models a Kubernetes `v1.Secret`: a name and a data map. -/
structure Secret where
  name : String
  data : List (String × String)
  deriving DecidableEq, Repr

/-- Source `handleSslProfile` (lines 1335-1374): require `tls.crt` and
`tls.key`; build a client-context profile keyed by secret name, namespace
and virtual-server name; report an update only when an existing entry
differed.  The returned `Option String` is the Go error. -/
def handleSslProfile (st : ManagerState) (rsCfg : ResourceConfig)
    (secret : Secret) (ns : String) :
    Option String × ManagerState × Bool :=
  match alLookup secret.data "tls.crt" with
  | none =>
      (some ("Invalid Secret " ++ secret.name ++ ": tls.crt field not specified."),
        st, false)
  | some _ =>
      match alLookup secret.data "tls.key" with
      | none =>
          (some ("Invalid Secret " ++ secret.name ++ ": tls.key field not specified."),
            st, false)
      | some _ =>
          let cp : CustomProfile :=
            { name := secret.name
              partition := rsCfg.virtual.partition
              context := customProfileClient
              cert := (alLookup secret.data "tls.crt").getD ""
              key := (alLookup secret.data "tls.key").getD ""
              serverName := "" }
          let skey : secretKey :=
            { name := cp.name
              Namespace := ns
              resourceName := rsCfg.virtual.virtualServerName }
          match alLookup st.customProfiles skey with
          | some prof =>
              if ¬ (prof = cp) then
                (none,
                  { st with customProfiles := alInsert st.customProfiles skey cp },
                  true)
              else (none, st, false)
          | none =>
              (none,
                { st with customProfiles := alInsert st.customProfiles skey cp },
                false)

/-- IngressTLS is one TLS entry of an Ingress (only the secret name is
used by the engine). -/
structure IngressTLS where
  secretName : String
  deriving DecidableEq, Repr

/-- Ingress models the parts of `v1beta1.Ingress` the claims read. -/
structure Ingress where
  Namespace : String
  annotations : List (String × String)
  tls : List IngressTLS
  deriving DecidableEq, Repr

/-- Source `virtualPorts` (lines 1382-1427): the ports required for an
Ingress, depending on the TLS section and the four annotations. -/
def virtualPorts (ing : Ingress) : List portStruct :=
  let httpPort : Int :=
    match alLookup ing.annotations "virtual-server.f5.com/http-port" with
    | some port => goParseInt32 port
    | none => DEFAULT_HTTP_PORT
  let httpsPort : Int :=
    match alLookup ing.annotations "virtual-server.f5.com/https-port" with
    | some port => goParseInt32 port
    | none => DEFAULT_HTTPS_PORT
  let sslRedirect :=
    getBooleanAnnotation ing.annotations "ingress.kubernetes.io/ssl-redirect" true
  let allowHttp :=
    getBooleanAnnotation ing.annotations "ingress.kubernetes.io/allow-http" false
  let http : portStruct := { protocol := "http", port := httpPort }
  let https : portStruct := { protocol := "https", port := httpsPort }
  if ing.tls.length > 0 then
    if sslRedirect ∨ allowHttp then [http, https]
    else [https]
  else [http]

/-- Claim C5's port computation, written from the claim's words: no TLS
gives `[http]`; TLS with `sslRedirect` or `allowHttp` gives
`[http, https]`; TLS with both false gives `[https]`; ports default to 80
and 443 unless the annotations override them. -/
def claimC5VirtualPorts (ing : Ingress) : List portStruct :=
  let httpPort : Int :=
    match alLookup ing.annotations "virtual-server.f5.com/http-port" with
    | some port => goParseInt32 port
    | none => 80
  let httpsPort : Int :=
    match alLookup ing.annotations "virtual-server.f5.com/https-port" with
    | some port => goParseInt32 port
    | none => 443
  let sslRedirect :=
    getBooleanAnnotation ing.annotations "ingress.kubernetes.io/ssl-redirect" true
  let allowHttp :=
    getBooleanAnnotation ing.annotations "ingress.kubernetes.io/allow-http" false
  if ing.tls = [] then [{ protocol := "http", port := httpPort }]
  else if sslRedirect = true ∨ allowHttp = true then
    [{ protocol := "http", port := httpPort },
      { protocol := "https", port := httpsPort }]
  else [{ protocol := "https", port := httpsPort }]

/-- InformerSet models the manager's informer bookkeeping: the set of
namespaces with an explicit informer bundle, and whether the namespace
label informer is installed. -/
structure InformerSet where
  appInformers : List String
  nsInformer : Bool
  deriving DecidableEq, Repr

/-- Source `watchingAllNamespacesLocked` (lines 214-221). -/
def watchingAllNamespacesLocked (inf : InformerSet) : Bool :=
  if inf.appInformers.length = 0 then false
  else inf.appInformers.contains ""

/-- Source `addNamespaceLocked` (lines 234-254): refuse to mix the
all-namespaces informer with specific ones; adding an already-watched
namespace is a no-op. -/
def addNamespaceLocked (inf : InformerSet) (ns : String) :
    Except String InformerSet :=
  if watchingAllNamespacesLocked inf then
    Except.error "Cannot add additional namespaces when already watching all."
  else if inf.appInformers.length > 0 ∧ ns = "" then
    Except.error "Cannot watch all namespaces when already watching specific ones."
  else if inf.appInformers.contains ns then Except.ok inf
  else Except.ok { inf with appInformers := inf.appInformers ++ [ns] }

/-- Source `AddNamespaceLabelInformer` (lines 271-305): refuse a second
label informer and refuse one while explicit namespace informers exist. -/
def AddNamespaceLabelInformer (inf : InformerSet) : Except String InformerSet :=
  if inf.nsInformer then
    Except.error "Already have a namespace label informer added."
  else if ¬ (inf.appInformers.length = 0) then
    Except.error "Cannot set a namespace label informer when informers have been setup for one or more namespaces."
  else Except.ok { inf with nsInformer := true }

/-- RouteTLS is the TLS section of an OpenShift route. -/
structure RouteTLS where
  termination : String
  certificate : String
  key : String
  destinationCACertificate : String
  deriving DecidableEq, Repr

/-- Route models the parts of `routeapi.Route` the claims read. -/
structure Route where
  name : String
  Namespace : String
  host : String
  toName : String
  tls : Option RouteTLS
  deriving DecidableEq, Repr

/-- Path of the cluster default CA certificate read by `loadDefaultCert`. -/
def defaultClusterCAPath : String :=
  "/var/run/secrets/kubernetes.io/serviceaccount/service-ca.crt"

/-- Source `loadDefaultCert` (lines 163-190).  The filesystem read of the
cluster CA is modelled by the `caFile` parameter (`none` = read error);
the last component of the result records whether the file was read at
all, so that "reads the file at most once per namespace" is observable. -/
def loadDefaultCert (st : ManagerState) (ns : String) (caFile : Option String) :
    Option ProfileRef × Bool × ManagerState × Bool :=
  let profileName := "openshift_route_cluster_default-server-ssl"
  let profile : ProfileRef :=
    { name := profileName, partition := DEFAULT_PARTITION,
      context := customProfileServer }
  let skey : secretKey := { name := profileName, Namespace := ns, resourceName := "" }
  match alLookup st.customProfiles skey with
  | some _ => (some profile, false, st, false)
  | none =>
      match caFile with
      | none => (none, false, st, true)
      | some data =>
          (some profile, true,
            { st with customProfiles :=
                alInsert st.customProfiles skey (NewCustomProfile profile data) },
            true)

/-- Source `formatRouteRuleName` (defined outside the provided file).
Modelled from the spec and from `deleteUnusedRoutes`, which recovers the
route name as the fourth underscore-separated field of a rule name. -/
def formatRouteRuleName (route : Route) : String :=
  "openshift_route_" ++ route.Namespace ++ "_" ++ route.name

/-- Source `setServerSslProfile` (lines 1174-1212).  `tls` is the route's
TLS section (the caller guards on it being present); `caFile` models the
cluster CA file; the final component records whether that file was read. -/
def setServerSslProfile (st : ManagerState) (sKey : serviceQueueKey)
    (rsCfg : ResourceConfig) (route : Route) (tls : RouteTLS)
    (caFile : Option String) (stats : vsSyncStats) :
    ManagerState × ResourceConfig × vsSyncStats × Bool :=
  if ¬ (tls.destinationCACertificate = "") then
    let ruleName := formatRouteRuleName route
    let profile : ProfileRef :=
      { name := ruleName ++ "-server-ssl"
        partition := rsCfg.virtual.partition
        context := customProfileServer }
    let cp := NewCustomProfile profile tls.destinationCACertificate
    let skey : secretKey :=
      { name := cp.name
        Namespace := sKey.Namespace
        resourceName := rsCfg.virtual.virtualServerName }
    let stats :=
      match alLookup st.customProfiles skey with
      | some prof =>
          if ¬ (prof = cp) then { stats with cpUpdated := stats.cpUpdated + 1 }
          else stats
      | none => stats
    let st := { st with customProfiles := alInsert st.customProfiles skey cp }
    let rsCfg := { rsCfg with virtual := rsCfg.virtual.addOrUpdateProfile profile }
    (st, rsCfg, stats, false)
  else
    match loadDefaultCert st sKey.Namespace caFile with
    | (profileRef, added, st, readAttempted) =>
        let rsCfg :=
          match profileRef with
          | some p => { rsCfg with virtual := rsCfg.virtual.addOrUpdateProfile p }
          | none => rsCfg
        let stats :=
          if added then { stats with cpUpdated := stats.cpUpdated + 1 } else stats
        (st, rsCfg, stats, readAttempted)

/-- Stat accumulation at the `handleConfigForType` call site of source
`syncConfigMaps` (lines 930-938). -/
def syncConfigMapsAddStats (stats : vsSyncStats) (ok : Bool)
    (found updated : Nat) : vsSyncStats :=
  if ok = false then { stats with vsUpdated := stats.vsUpdated + updated }
  else { stats with vsFound := stats.vsFound + found,
                    vsUpdated := stats.vsUpdated + updated }

/-- Stat accumulation at the `handleConfigForType` call site of source
`syncRoutes` (lines 1095-1104). -/
def syncRoutesAddStats (stats : vsSyncStats) (ok : Bool)
    (found updated : Nat) : vsSyncStats :=
  if ok = false then { stats with vsUpdated := stats.vsUpdated + updated }
  else { stats with vsFound := stats.vsFound + found,
                    vsUpdated := stats.vsUpdated + updated }

/-- Source `processAllMultiSvc` (lines 1666-1676): true when the store holds
as many copies of the resource name as the config has pools. -/
def processAllMultiSvc (rs : Resources) (numPools : Nat) (rsName : String) :
    Bool :=
  if (rGetAllWithName rs rsName).length = numPools then true else false

/-- Stat accumulation at the `handleConfigForType` call site of source
`syncIngresses` (lines 1025-1042), including the multi-service guard that
subtracts one from `updated`. -/
def syncIngressesAddStats (rs : Resources) (numPools : Nat) (rsName : String)
    (stats : vsSyncStats) (ok : Bool) (found updated : Nat) : vsSyncStats :=
  if ok = false then { stats with vsUpdated := stats.vsUpdated + updated }
  else
    let updated :=
      if updated > 0 ∧ ¬ (processAllMultiSvc rs numPools rsName = true) then
        updated - 1
      else updated
    { stats with vsFound := stats.vsFound + found,
                 vsUpdated := stats.vsUpdated + updated }

/-- Stat accumulation for the `handleIngressTls` result in source
`syncIngresses` (lines 983-986). -/
def syncIngressesTlsAddStats (stats : vsSyncStats) (updated : Bool) :
    vsSyncStats :=
  if updated then { stats with cpUpdated := stats.cpUpdated + 1 } else stats

/-- Zero value of `Pool` (Go `Pool{}`). -/
def emptyPool : Pool :=
  { name := "", serviceName := "", servicePort := 0, members := [] }

/-- NodeAddress is one entry of a node's status address list. -/
structure NodeAddress where
  addrType : String
  address : String
  deriving DecidableEq, Repr

/-- Node models the parts of `v1.Node` read by `getNodeAddresses`. -/
structure Node where
  unschedulable : Bool
  addresses : List NodeAddress
  deriving DecidableEq, Repr

/-- Address type chosen when `useNodeInternal` is set. -/
def NodeInternalIP : String := "InternalIP"

/-- Address type chosen when `useNodeInternal` is unset. -/
def NodeExternalIP : String := "ExternalIP"

/-- Source `getNodeAddresses` (lines 2006-2039): the addresses of the
configured type on every schedulable node; a non-node-list input is the
type-assertion error. -/
def getNodeAddresses (st : ManagerState) (obj : Option (List Node)) :
    Except String (List String) :=
  match obj with
  | none => Except.error "poll update unexpected type, interface is not []v1.Node"
  | some nodes =>
      let addrType := if st.useNodeInternal then NodeInternalIP else NodeExternalIP
      Except.ok (nodes.flatMap (fun node =>
        if node.unschedulable then []
        else node.addresses.filterMap (fun addr =>
          if addr.addrType = addrType then some addr.address else none)))

/-- Lexicographic comparison of character lists by code point (helper for
`strLe`). -/
def charListLe : List Char → List Char → Bool
  | [], _ => true
  | _ :: _, [] => false
  | a :: as, b :: bs =>
      if a.toNat < b.toNat then true
      else if b.toNat < a.toNat then false
      else charListLe as bs

/-- Go string ordering (byte-wise; code-point-wise agrees on the ASCII
addresses handled here). -/
def strLe (a b : String) : Bool :=
  charListLe a.data b.data

/-- Insert into a sorted list of strings (helper for `sortStrings`). -/
def insertSorted (x : String) : List String → List String
  | [] => [x]
  | y :: rest => if strLe x y then x :: y :: rest else y :: insertSorted x rest

/-- Go `sort.Strings`: ascending lexicographic sort, here by insertion. -/
def sortStrings (l : List String) : List String :=
  l.foldr insertSorted []

/-- Overwrite the members of pool 0 with one member per node address, each
carrying the config's node port (the loop body of `ProcessNodeUpdate`). -/
def setPoolZeroMembers (cfg : ResourceConfig) (newNodes : List String) :
    ResourceConfig :=
  let members := newNodes.map (fun node =>
    ({ address := node, port := cfg.metaData.nodePort,
       session := "user-enabled" } : Member))
  { cfg with pools :=
      cfg.pools.set 0 { cfg.pools.getD 0 emptyPool with members := members } }

/-- Source `ProcessNodeUpdate` (lines 1946-1993).  `errIn` is the incoming
error argument; the returned boolean records whether a configuration was
written. -/
def ProcessNodeUpdate (st : ManagerState) (obj : Option (List Node))
    (errIn : Bool) : ManagerState × Bool :=
  if errIn then (st, false)
  else
    match getNodeAddresses st obj with
    | Except.error _ => (st, false)
    | Except.ok addrs =>
        let newNodes := sortStrings addrs
        if st.initialState then
          if ¬ (newNodes = st.oldNodes) then
            let resources := st.resources.map
              (fun e => (e.1, setPoolZeroMembers e.2 newNodes))
            ({ st with resources := resources, oldNodes := newNodes }, true)
          else (st, false)
        else ({ st with oldNodes := newNodes }, false)

/-- Source `formatIngressSslProfileName` (defined outside the provided
file).  Modelled from the spec: the stored reference is the
`partition/name` path the caller already assembled. -/
def formatIngressSslProfileName (path : String) : String := path

/-- One iteration of the TLS loop in source `handleIngressTls`
(lines 1264-1285).  State: manager, config under construction, the Go
locals `cpUpdated` and `updateState`. -/
def handleIngressTlsStep (ns : String) (secretFetch : String → Option Secret)
    (acc : ManagerState × ResourceConfig × Bool × Bool) (tlsEntry : IngressTLS) :
    ManagerState × ResourceConfig × Bool × Bool :=
  let (st, rsCfg, cpUpdated, updateState) := acc
  match secretFetch tlsEntry.secretName with
  | none =>
      let secretName := formatIngressSslProfileName tlsEntry.secretName
      (st, { rsCfg with virtual := rsCfg.virtual.addSslProfileName secretName },
        cpUpdated, updateState)
  | some secret =>
      match handleSslProfile st rsCfg secret ns with
      | (some _, st', cp) =>
          -- handleSslProfile failed: the multiple assignment has already
          -- overwritten cpUpdated before the error check skips the rest.
          (st', rsCfg, cp, updateState)
      | (none, st', cp) =>
          let updateState := updateState ∨ cp
          let secretName := formatIngressSslProfileName
            (rsCfg.virtual.partition ++ "/" ++ tlsEntry.secretName)
          (st',
            { rsCfg with virtual := rsCfg.virtual.addSslProfileName secretName },
            cp, updateState)

/-- Source `handleIngressTls` (lines 1238-1333).  On the HTTPS virtual the
TLS entries are processed in order and the function returns the Go local
`cpUpdated` — the status of the last processed entry — not the
accumulated `updateState`.  On the HTTP virtual it installs the redirect
iRule when `sslRedirect` holds; the trailing policy block of the source is
dead code (`rule` is never assigned). -/
def handleIngressTls (st : ManagerState) (rsCfg : ResourceConfig)
    (ing : Ingress) (secretFetch : String → Option Secret) :
    ManagerState × ResourceConfig × Bool :=
  if ing.tls.length = 0 then (st, rsCfg, false)
  else
    match rsCfg.virtual.virtualAddress with
    | none => (st, rsCfg, false)
    | some va =>
        if va.bindAddr = "" then (st, rsCfg, false)
        else
          let httpsPort : Int :=
            match alLookup ing.annotations "virtual-server.f5.com/https-port" with
            | some port => goParseInt32 port
            | none => DEFAULT_HTTPS_PORT
          if va.port = httpsPort then
            let final := ing.tls.foldl
              (handleIngressTlsStep ing.Namespace secretFetch)
              (st, rsCfg, false, false)
            (final.1, final.2.1, final.2.2.1)
          else
            let sslRedirect := getBooleanAnnotation ing.annotations
              "ingress.kubernetes.io/ssl-redirect" true
            if sslRedirect then
              let ruleName := "/" ++ DEFAULT_PARTITION ++ "/" ++ httpRedirectIRuleName
              let stRule :=
                if ¬ (httpsPort = DEFAULT_HTTPS_PORT) then
                  let ruleName' := ruleName ++ "_" ++ toString httpsPort
                  (addIRule st ruleName' DEFAULT_PARTITION
                      (httpRedirectIRule httpsPort),
                    ruleName')
                else (st, ruleName)
              (stRule.1,
                { rsCfg with virtual := rsCfg.virtual.addIRuleRef stRule.2 },
                false)
            else (st, rsCfg, false)

/-- Zero value of `ResourceConfig` (Go `ResourceConfig{}`). -/
def emptyResourceConfig : ResourceConfig :=
  { virtual :=
      { virtualServerName := "", partition := "", virtualAddress := none,
        sslProfileNames := [], iRules := [], profiles := [], iApp := "" }
    pools := []
    policies := []
    monitors := []
    metaData := { active := false, nodePort := 0, resourceType := "" } }

/-- Backing-array effect of the pool removal step in source
`handleConfigForType` (lines 1464-1466): `copy(Pools[j:], Pools[j+1:])`
shifts the elements at positions `j+1 .. m-1` down by one,
`Pools[m-1] = Pool{}` zero-fills the last slot of the current slice, and
the slice is shortened; positions at or beyond `m` keep their values. -/
def shiftRemovePool (A : List Pool) (j m : Nat) : List Pool :=
  A.take j ++ (A.drop (j + 1)).take (m - 1 - j) ++ [emptyPool] ++ A.drop m

/-- The Go `for j, pool := range cfg.Pools` loop of source
`handleConfigForType` (lines 1462-1468), which removes pools while
iterating: `range` fixes the iteration count and reads each element
through the shared backing array, so a removal shifts the next element
into the removed slot where the loop skips it.  `fuel` counts the
remaining iterations, `j` is the loop index, `m` the current slice
length. -/
def poolRemoveLoop (svcName : String) :
    Nat → Nat → List Pool → Nat → List Pool × Nat
  | 0, _, A, m => (A, m)
  | fuel + 1, j, A, m =>
      if (A.getD j emptyPool).serviceName = svcName then
        poolRemoveLoop svcName fuel (j + 1) (shiftRemovePool A j m) (m - 1)
      else poolRemoveLoop svcName fuel (j + 1) A m

/-- Result of the pool removal loop on a pool list: run the loop over the
original length and keep the surviving prefix. -/
def removeMatchingPools (svcName : String) (pools : List Pool) : List Pool :=
  let r := poolRemoveLoop svcName pools.length 0 pools pools.length
  r.1.take r.2

/-- Backing-array effect of
`cfgList = append(cfgList[:index], cfgList[index+1:]...)` in source
`handleConfigForType` (line 1491): elements after `index` shift down by
one and the slice shortens; the last slot of the current slice keeps its
old value (no zero fill). -/
def shiftRemoveCfg (A : List ResourceConfig) (j m : Nat) : List ResourceConfig :=
  A.take j ++ (A.drop (j + 1)).take (m - 1 - j) ++ A.drop (m - 1)

/-- The `for index, val := range cfgList` removal loop of source
`handleConfigForType` (lines 1489-1494), with the same
remove-while-iterating semantics as `poolRemoveLoop`. -/
def cfgRemoveLoop (rsName : String) :
    Nat → Nat → List ResourceConfig → Nat → List ResourceConfig × Nat
  | 0, _, A, m => (A, m)
  | fuel + 1, j, A, m =>
      if (A.getD j emptyResourceConfig).virtual.virtualServerName = rsName then
        cfgRemoveLoop rsName fuel (j + 1) (shiftRemoveCfg A j m) (m - 1)
      else cfgRemoveLoop rsName fuel (j + 1) A m

/-- Result of the config removal loop on a config list. -/
def removeCfgsWithName (rsName : String) (cfgs : List ResourceConfig) :
    List ResourceConfig :=
  let r := cfgRemoveLoop rsName cfgs.length 0 cfgs cfgs.length
  r.1.take r.2

/-- ServicePort is one port declared on a Service. -/
structure ServicePort where
  name : String
  port : Int
  nodePort : Int
  deriving DecidableEq, Repr

/-- Service models the parts of `v1.Service` the engine reads. -/
structure Service where
  specType : String
  ports : List ServicePort
  deriving DecidableEq, Repr

/-- Go `v1.ServiceTypeNodePort`. -/
def ServiceTypeNodePort : String := "NodePort"

/-- EndpointsPort is one port of an endpoints subset. -/
structure EndpointsPort where
  name : String
  port : Int
  deriving DecidableEq, Repr

/-- EndpointAddress is one ready address of an endpoints subset. -/
structure EndpointAddress where
  ip : String
  deriving DecidableEq, Repr

/-- EndpointsSubset groups addresses with the ports they serve. -/
structure EndpointsSubset where
  ports : List EndpointsPort
  addresses : List EndpointAddress
  deriving DecidableEq, Repr

/-- Endpoints models `v1.Endpoints`. -/
structure Endpoints where
  subsets : List EndpointsSubset
  deriving DecidableEq, Repr

/-- AppInf models the per-namespace informer bundle; only the endpoints
cache is read by the functions under study (key `"namespace/name"`). -/
structure AppInf where
  endptStore : List (String × Endpoints)

/-- Source `getEndpointsForService` (lines 1866-1891): one member per ready
address of every subset port whose name matches. -/
def getEndpointsForService (portName : String) (eps : Option Endpoints) :
    List Member :=
  match eps with
  | none => []
  | some eps =>
      eps.subsets.flatMap (fun subset =>
        subset.ports.flatMap (fun p =>
          if portName = p.name then
            subset.addresses.map (fun addr =>
              ({ address := addr.ip, port := p.port,
                 session := "user-enabled" } : Member))
          else []))

/-- Source `getEndpointsForNodePort` (lines 1893-1908): one member per
cached node address, all on the given node port. -/
def getEndpointsForNodePort (st : ManagerState) (nodePort : Int) : List Member :=
  st.oldNodes.map (fun v =>
    ({ address := v, port := nodePort, session := "user-enabled" } : Member))

/-- Source `updatePoolMembersForNodePort` (lines 1553-1577).  Returns the
updated config, the `correctBackend` flag, and the event reason and
message. -/
def updatePoolMembersForNodePort (st : ManagerState) (svc : Service)
    (svcKey : serviceKey) (rsCfg : ResourceConfig) (index : Nat) :
    ResourceConfig × Bool × String × String :=
  if svc.specType = ServiceTypeNodePort then
    let rsCfg := svc.ports.foldl (fun cfg portSpec =>
      if portSpec.port = svcKey.servicePort then
        let md := { cfg.metaData with active := true, nodePort := portSpec.nodePort }
        let members := getEndpointsForNodePort st portSpec.nodePort
        let pl := { cfg.pools.getD index emptyPool with members := members }
        { cfg with metaData := md, pools := cfg.pools.set index pl }
      else cfg) rsCfg
    (rsCfg, true, "", "")
  else
    (rsCfg, false, "IncorrectBackendServiceType",
      "Requested service backend not of NodePort type")

/-- Source `updatePoolMembersForCluster` (lines 1579-1603). -/
def updatePoolMembersForCluster (svc : Service) (sKey : serviceKey)
    (rsCfg : ResourceConfig) (appInf : AppInf) (index : Nat) :
    ResourceConfig × Bool × String × String :=
  let svcKeyStr := sKey.Namespace ++ "/" ++ sKey.serviceName
  match alLookup appInf.endptStore svcKeyStr with
  | none => (rsCfg, false, "EndpointsNotFound", "Endpoints for service not found")
  | some eps =>
      let rsCfg := svc.ports.foldl (fun cfg portSpec =>
        if portSpec.port = sKey.servicePort then
          let md := { cfg.metaData with active := true }
          let members := getEndpointsForService portSpec.name (some eps)
          let pl := { cfg.pools.getD index emptyPool with members := members }
          { cfg with metaData := md, pools := cfg.pools.set index pl }
        else cfg) rsCfg
      (rsCfg, true, "", "")

/-- Source `deactivateVirtualServer` (lines 1605-1631): when the store has
an entry, clear the activation flag and the members of the pool at
`index` and persist the config only if it now differs; when there is no
entry, persist the config as passed, untouched. -/
def deactivateVirtualServer (st : ManagerState) (sKey : serviceKey)
    (rsName : String) (rsCfg : ResourceConfig) (index : Nat) :
    ManagerState × ResourceConfig × Bool :=
  match rGet st.resources sKey rsName with
  | some rs =>
      let md := { rsCfg.metaData with active := false }
      let pl := { rsCfg.pools.getD index emptyPool with members := ([] : List Member) }
      let rsCfg' := { rsCfg with metaData := md, pools := rsCfg.pools.set index pl }
      if ¬ (rs = rsCfg') then
        ({ st with resources := rAssign st.resources sKey rsName rsCfg' },
          rsCfg', true)
      else (st, rsCfg', false)
  | none =>
      ({ st with resources := rAssign st.resources sKey rsName rsCfg },
        rsCfg, true)

/-- Source `saveVirtualServer` (lines 1633-1649): persist only when the new
config differs from the stored one. -/
def saveVirtualServer (st : ManagerState) (sKey : serviceKey) (rsName : String)
    (newRsCfg : ResourceConfig) : ManagerState × Bool :=
  match rGet st.resources sKey rsName with
  | some oldRsCfg =>
      if oldRsCfg = newRsCfg then (st, false)
      else ({ st with resources := rAssign st.resources sKey rsName newRsCfg },
        true)
  | none =>
      ({ st with resources := rAssign st.resources sKey rsName newRsCfg }, true)

/-- HandleConfigResult packages the state threaded through
`handleConfigForType` together with its `(ours, found, updated)` return
values. -/
structure HandleConfigResult where
  st : ManagerState
  rsMap : List (Int × List ResourceConfig)
  rsCfg : ResourceConfig
  ours : Bool
  found : Nat
  updated : Nat

/-- Source `handleConfigForType` (lines 1430-1551). -/
def handleConfigForType (st : ManagerState) (appInf : AppInf)
    (rsCfg : ResourceConfig) (sKey : serviceQueueKey)
    (rsMap : List (Int × List ResourceConfig)) (rsName : String)
    (svcPortMap : List Int) (svc : Option Service) (currRouteSvc : String) :
    HandleConfigResult :=
  match rsCfg.pools.findIdx? (fun pl => pl.serviceName == sKey.serviceName) with
  | none =>
      -- No pool for this service: remove its pools from every stored copy
      -- of the resource name and report "not ours".
      let entries := rGetAllWithName st.resources rsName
      let resources := entries.foldl
        (fun rs (e : ResourceConfig × serviceKey) =>
          let cfg := { e.1 with pools := removeMatchingPools sKey.serviceName e.1.pools }
          rAssign rs e.2 rsName cfg)
        st.resources
      { st := { st with resources := resources }, rsMap := rsMap,
        rsCfg := rsCfg, ours := false, found := 0, updated := 0 }
  | some plIdx =>
      let pool := rsCfg.pools.getD plIdx emptyPool
      let svcKey : serviceKey :=
        { Namespace := sKey.Namespace, serviceName := pool.serviceName,
          servicePort := pool.servicePort }
      let rsMap :=
        if currRouteSvc = "" ∨ currRouteSvc = sKey.serviceName then
          let cfgList := (alLookup rsMap pool.servicePort).getD []
          if cfgList.length = 1 then alErase rsMap pool.servicePort
          else if cfgList.length > 1 then
            alInsert rsMap pool.servicePort (removeCfgsWithName rsName cfgList)
          else rsMap
        else rsMap
      let afterPortCheck :=
        if ¬ (svcPortMap.contains pool.servicePort) then
          let d := deactivateVirtualServer st svcKey rsName rsCfg plIdx
          (d.1, d.2.1, if d.2.2 then 1 else 0)
        else (st, rsCfg, 0)
      let st := afterPortCheck.1
      let rsCfg := afterPortCheck.2.1
      let vsUpdated : Nat := afterPortCheck.2.2
      match svc with
      | none =>
          -- Service gone: deactivate; the Ingress "ServiceNotFound" event
          -- is external I/O and not modelled.
          let d := deactivateVirtualServer st svcKey rsName rsCfg plIdx
          { st := d.1, rsMap := rsMap, rsCfg := d.2.1, ours := false,
            found := 0,
            updated := if d.2.2 then vsUpdated + 1 else vsUpdated }
      | some svc =>
          let u :=
            if st.isNodePort then
              updatePoolMembersForNodePort st svc svcKey rsCfg plIdx
            else updatePoolMembersForCluster svc svcKey rsCfg appInf plIdx
          let rsCfg := u.1
          let saved := saveVirtualServer st svcKey rsName rsCfg
          { st := saved.1, rsMap := rsMap, rsCfg := rsCfg, ours := true,
            found := 1,
            updated := if saved.2 then vsUpdated + 1 else vsUpdated }

/-- Source `AddNamespace` (lines 223-232): take the informers lock and call
`addNamespaceLocked`; on error the informer set is untouched. -/
def AddNamespace (inf : InformerSet) (ns : String) : InformerSet × Option String :=
  match addNamespaceLocked inf ns with
  | Except.ok inf' => (inf', none)
  | Except.error e => (inf, some e)

/-- State-passing form of `AddNamespaceLabelInformer`: on error the informer
set is untouched. -/
def addNamespaceLabelInformerRun (inf : InformerSet) :
    InformerSet × Option String :=
  match AddNamespaceLabelInformer inf with
  | Except.ok inf' => (inf', none)
  | Except.error e => (inf, some e)

theorem alLookup_replace_self {K V : Type} [DecidableEq K] (l : List (K × V))
    (k : K) (v : V) (h : l.any (fun e => e.1 = k) = true) :
    alLookup (alReplace l k v) k = some v := by
  induction l with
  | nil => simp at h
  | cons hd tl ih =>
      obtain ⟨k₀, v₀⟩ := hd
      by_cases hk : k₀ = k
      · simp [alReplace, alLookup, hk]
      · have h' : tl.any (fun e => e.1 = k) = true := by
          simpa [hk] using h
        simp [alReplace, alLookup, hk, ih h']

theorem alLookup_append_self {K V : Type} [DecidableEq K] (l : List (K × V))
    (k : K) (v : V) (h : ¬ l.any (fun e => e.1 = k) = true) :
    alLookup (l ++ [(k, v)]) k = some v := by
  induction l with
  | nil => simp [alLookup]
  | cons hd tl ih =>
      obtain ⟨k₀, v₀⟩ := hd
      by_cases hk : k₀ = k
      · exact absurd (by simp [hk]) h
      · have h' : ¬ tl.any (fun e => e.1 = k) = true := by
          intro hc; exact h (by simp [hc])
        simp [alLookup, hk, ih h']

theorem alLookup_alInsert_self {K V : Type} [DecidableEq K] (l : List (K × V))
    (k : K) (v : V) :
    alLookup (alInsert l k v) k = some v := by
  unfold alInsert
  by_cases h : l.any (fun e => e.1 = k) = true
  · rw [if_pos h]; exact alLookup_replace_self l k v h
  · rw [if_neg h]; exact alLookup_append_self l k v h

theorem alLookup_replace_ne {K V : Type} [DecidableEq K] (l : List (K × V))
    (k k' : K) (v : V) (h : ¬ k' = k) :
    alLookup (alReplace l k v) k' = alLookup l k' := by
  induction l with
  | nil => simp [alReplace]
  | cons hd tl ih =>
      obtain ⟨k₀, v₀⟩ := hd
      by_cases hk : k₀ = k
      · have hkk' : ¬ k = k' := fun hc => h hc.symm
        have hk₀k' : ¬ k₀ = k' := by rw [hk]; exact hkk'
        simp [alReplace, alLookup, hk, hkk', hk₀k', ih]
      · by_cases hk' : k₀ = k' <;> simp [alReplace, alLookup, hk, hk', h, ih]

theorem alLookup_append_ne {K V : Type} [DecidableEq K] (l : List (K × V))
    (k k' : K) (v : V) (h : ¬ k' = k) :
    alLookup (l ++ [(k, v)]) k' = alLookup l k' := by
  induction l with
  | nil =>
      have hkk' : ¬ k = k' := fun hc => h hc.symm
      simp [alLookup, hkk']
  | cons hd tl ih =>
      obtain ⟨k₀, v₀⟩ := hd
      by_cases hk' : k₀ = k' <;> simp [alLookup, hk', ih]

theorem alLookup_alInsert_ne {K V : Type} [DecidableEq K] (l : List (K × V))
    (k k' : K) (v : V) (h : ¬ k' = k) :
    alLookup (alInsert l k v) k' = alLookup l k' := by
  unfold alInsert
  by_cases hAny : l.any (fun e => e.1 = k) = true
  · rw [if_pos hAny]; exact alLookup_replace_ne l k k' v h
  · rw [if_neg hAny]; exact alLookup_append_ne l k k' v h

/-- Claim C1.  The emission gate of `syncVirtualServer` does NOT test
`vsFound`: with `vsFound = 1`, all other counters zero and a non-empty
virtual-server queue, the claim's condition holds but the code does not
emit. -/
theorem claimC1_counterexample :
    ¬ ((syncVirtualServerEmitGate
          { vsFound := 1, vsUpdated := 0, vsDeleted := 0, cpUpdated := 0,
            dgUpdated := 0 } 1 0 false = true) ↔
        claimC1EmitCondition
          { vsFound := 1, vsUpdated := 0, vsDeleted := 0, cpUpdated := 0,
            dgUpdated := 0 } 1 0 false) := by
  decide

/-- Claim C1, amended: after the three sub-syncs and garbage collection,
`syncVirtualServer` emits the configuration iff one of the four counters
`vsUpdated`, `vsDeleted`, `cpUpdated`, `dgUpdated` is non-zero (`vsFound`
is not consulted), or else both queues are empty and the initial-state
flag is false. -/
theorem claimC1_amended (stats : vsSyncStats) (v n : Nat) (i : Bool) :
    syncVirtualServerEmitGate stats v n i = true ↔
      ((stats.vsUpdated > 0 ∨ stats.vsDeleted > 0 ∨ stats.cpUpdated > 0 ∨
          stats.dgUpdated > 0) ∨
        (v = 0 ∧ n = 0 ∧ i = false)) := by
  unfold syncVirtualServerEmitGate
  by_cases h : stats.vsUpdated > 0 ∨ stats.vsDeleted > 0 ∨ stats.cpUpdated > 0 ∨
      stats.dgUpdated > 0
  · simp [h]
  · rw [if_neg h]
    by_cases hq : v = 0 ∧ n = 0
    · cases i <;> simp [hq, h]
    · simp [hq, h]
      intro hv hn
      exact absurd ⟨hv, hn⟩ hq

/-- Claim C5.  `virtualPorts` computes exactly the port list described by
the claim: `[http]` without TLS, `[http, https]` with TLS when
`sslRedirect` or `allowHttp` evaluates true, `[https]` otherwise, with
ports 80/443 unless the `virtual-server.f5.com/http-port` and
`.../https-port` annotations override them and with `sslRedirect`
defaulting to true and `allowHttp` to false. -/
theorem claimC5_virtualPorts (ing : Ingress) :
    virtualPorts ing = claimC5VirtualPorts ing := by
  unfold virtualPorts claimC5VirtualPorts DEFAULT_HTTP_PORT DEFAULT_HTTPS_PORT
  cases htls : ing.tls with
  | nil => simp
  | cons hd tl => simp

/-- Claim C9.  `AddNamespace("")` fails while a specific namespace informer
exists; `AddNamespace(ns)` fails while `""` is watched;
`AddNamespaceLabelInformer` fails while any namespace informer exists or
when a label informer is already installed; in every error case the
informer set is returned unchanged. -/
theorem claimC9_informerErrors (inf : InformerSet) (ns : String) :
    ((∃ x, x ∈ inf.appInformers ∧ ¬ x = "") →
        (AddNamespace inf "").2.isSome = true ∧ (AddNamespace inf "").1 = inf) ∧
    (("" ∈ inf.appInformers) →
        (AddNamespace inf ns).2.isSome = true ∧ (AddNamespace inf ns).1 = inf) ∧
    ((¬ inf.appInformers = []) →
        (addNamespaceLabelInformerRun inf).2.isSome = true ∧
          (addNamespaceLabelInformerRun inf).1 = inf) ∧
    (inf.nsInformer = true →
        (addNamespaceLabelInformerRun inf).2.isSome = true ∧
          (addNamespaceLabelInformerRun inf).1 = inf) := by
  refine ⟨?_, ?_, ?_, ?_⟩
  · rintro ⟨x, hx, hxne⟩
    have hne : ¬ inf.appInformers = [] := by
      intro hc; rw [hc] at hx; simp at hx
    have hlen : inf.appInformers.length > 0 := by
      cases hArr : inf.appInformers with
      | nil => exact absurd hArr hne
      | cons a b => simp
    unfold AddNamespace addNamespaceLocked watchingAllNamespacesLocked
    by_cases hall : inf.appInformers.contains "" = true
    · simp only [if_neg (Nat.pos_iff_ne_zero.mp hlen), hall, if_true]
      simp
    · simp only [if_neg (Nat.pos_iff_ne_zero.mp hlen), hall]
      simp only [Bool.false_eq_true, if_false, hlen, and_true, if_pos]
      simp
  · intro hmem
    have hcon : inf.appInformers.contains "" = true := by
      simpa [List.contains] using hmem
    have hne : ¬ inf.appInformers = [] := by
      intro hc; rw [hc] at hmem; simp at hmem
    have hlen : ¬ inf.appInformers.length = 0 := by
      simpa [List.length_eq_zero] using hne
    unfold AddNamespace addNamespaceLocked watchingAllNamespacesLocked
    simp only [if_neg hlen, hcon, if_true]
    simp
  · intro hne
    have hlen : ¬ inf.appInformers.length = 0 := by
      simpa [List.length_eq_zero] using hne
    unfold addNamespaceLabelInformerRun AddNamespaceLabelInformer
    by_cases hni : inf.nsInformer = true
    · simp [hni]
    · simp [hni, hlen]
  · intro hni
    unfold addNamespaceLabelInformerRun AddNamespaceLabelInformer
    simp [hni]

/-- Witness for claim C9 at concrete informer sets. -/
theorem claimC9_informerErrors_witness :
    ((AddNamespace { appInformers := ["ns1"], nsInformer := false } "").2.isSome
        = true) ∧
    ((AddNamespace { appInformers := [""], nsInformer := false } "ns2").2.isSome
        = true) ∧
    ((addNamespaceLabelInformerRun
        { appInformers := ["ns1"], nsInformer := false }).2.isSome = true) ∧
    ((addNamespaceLabelInformerRun
        { appInformers := [], nsInformer := true }).2.isSome = true) := by
  refine ⟨?_, ?_, ?_, ?_⟩
  · exact ((claimC9_informerErrors
      { appInformers := ["ns1"], nsInformer := false } "").1
        ⟨"ns1", by decide, by decide⟩).1
  · exact ((claimC9_informerErrors
      { appInformers := [""], nsInformer := false } "ns2").2.1 (by decide)).1
  · exact ((claimC9_informerErrors
      { appInformers := ["ns1"], nsInformer := false } "").2.2.1 (by decide)).1
  · exact ((claimC9_informerErrors
      { appInformers := [], nsInformer := true } "").2.2.2 (by decide)).1

/-- The secret-key under which `handleSslProfile` files its profile. -/
def sslProfileKey (rsCfg : ResourceConfig) (secret : Secret) (ns : String) :
    secretKey :=
  { name := secret.name, Namespace := ns,
    resourceName := rsCfg.virtual.virtualServerName }

/-- The client-context profile `handleSslProfile` builds from a secret. -/
def sslProfileOf (rsCfg : ResourceConfig) (secret : Secret) : CustomProfile :=
  { name := secret.name
    partition := rsCfg.virtual.partition
    context := customProfileClient
    cert := (alLookup secret.data "tls.crt").getD ""
    key := (alLookup secret.data "tls.key").getD ""
    serverName := "" }

/-- Claim C4.  `handleSslProfile` fails exactly when the secret's data lacks
`tls.crt` or `tls.key`; on success the store holds, under the key
`(secret name, namespace, virtual-server name)`, the client-context
profile built from the secret, and the update flag is true exactly when
an entry under that key already existed and differed — so a first insert
and an identical overwrite both report false. -/
theorem claimC4_handleSslProfile (st : ManagerState) (rsCfg : ResourceConfig)
    (secret : Secret) (ns : String) :
    ((handleSslProfile st rsCfg secret ns).1.isSome = true ↔
      (alLookup secret.data "tls.crt" = none ∨
        alLookup secret.data "tls.key" = none)) ∧
    ((handleSslProfile st rsCfg secret ns).1 = none →
      alLookup (handleSslProfile st rsCfg secret ns).2.1.customProfiles
          (sslProfileKey rsCfg secret ns) =
        some (sslProfileOf rsCfg secret) ∧
      ((handleSslProfile st rsCfg secret ns).2.2 = true ↔
        ∃ old, alLookup st.customProfiles (sslProfileKey rsCfg secret ns) =
            some old ∧ ¬ old = sslProfileOf rsCfg secret)) := by
  unfold handleSslProfile sslProfileKey sslProfileOf
  cases hc : alLookup secret.data "tls.crt" with
  | none => simp
  | some crt =>
      cases hk : alLookup secret.data "tls.key" with
      | none => simp
      | some key =>
          simp only [Option.getD_some, Option.isSome_some, Option.isSome_none]
          cases hp : alLookup st.customProfiles
              { name := secret.name, Namespace := ns,
                resourceName := rsCfg.virtual.virtualServerName } with
          | some prof =>
              dsimp only
              by_cases heq : prof =
                  { name := secret.name, partition := rsCfg.virtual.partition,
                    context := customProfileClient, cert := crt, key := key,
                    serverName := "" }
              · rw [if_neg (not_not_intro heq)]
                refine ⟨by simp, fun _ => ⟨?_, ?_⟩⟩
                · dsimp only; rw [hp, heq]
                · simp only [Bool.false_eq_true, false_iff]
                  rintro ⟨old, hold, holdne⟩
                  have h1 : prof = old := Option.some.inj hold
                  exact holdne (by rw [← h1]; exact heq)
              · rw [if_pos heq]
                refine ⟨by simp, fun _ => ⟨?_, ?_⟩⟩
                · exact alLookup_alInsert_self _ _ _
                · simp only [true_iff]
                  exact ⟨prof, rfl, heq⟩
          | none =>
              dsimp only
              refine ⟨by simp, fun _ => ⟨?_, ?_⟩⟩
              · exact alLookup_alInsert_self _ _ _
              · simp only [Bool.false_eq_true, false_iff]
                rintro ⟨old, hold, _⟩
                exact Option.noConfusion hold

/-- Empty manager state used by concrete scenarios (node-port mode). -/
def mgr0 : ManagerState :=
  { resources := [], customProfiles := [], irulesMap := [], oldNodes := [],
    isNodePort := true, useNodeInternal := false, initialState := false }

/-- A complete TLS secret used by concrete scenarios. -/
def tlsSecret0 : Secret :=
  { name := "tls-secret", data := [("tls.crt", "CERT"), ("tls.key", "KEY")] }

/-- Witness for claim C4: a complete secret is accepted, the profile is
stored under its key, and a first insert reports no update. -/
theorem claimC4_handleSslProfile_witness :
    (handleSslProfile mgr0 emptyResourceConfig tlsSecret0 "ns1").1 = none ∧
    alLookup (handleSslProfile mgr0 emptyResourceConfig tlsSecret0
          "ns1").2.1.customProfiles
        (sslProfileKey emptyResourceConfig tlsSecret0 "ns1") =
      some (sslProfileOf emptyResourceConfig tlsSecret0) ∧
    (handleSslProfile mgr0 emptyResourceConfig tlsSecret0 "ns1").2.2 = false := by
  have h := claimC4_handleSslProfile mgr0 emptyResourceConfig tlsSecret0 "ns1"
  have hok : (handleSslProfile mgr0 emptyResourceConfig tlsSecret0 "ns1").1 =
      none := by decide
  exact ⟨hok, (h.2 hok).1, by decide⟩

/-- The store key of the cluster-default server-SSL profile for a
namespace. -/
def defaultServerSslKey (ns : String) : secretKey :=
  { name := "openshift_route_cluster_default-server-ssl", Namespace := ns,
    resourceName := "" }

/-- The profile reference installed for the cluster-default server SSL
certificate. -/
def defaultServerSslProfile : ProfileRef :=
  { name := "openshift_route_cluster_default-server-ssl",
    partition := DEFAULT_PARTITION, context := customProfileServer }

/-- Claim C8.  For a reencrypt route with empty `destinationCACertificate`:
when the namespace's default profile is already stored, the sync neither
reads the CA file nor changes `cpUpdated` nor the profile store; when it
is absent and the file read succeeds, the file is read, the profile
`openshift_route_cluster_default-server-ssl` is stored for the namespace
and `cpUpdated` grows by exactly one. -/
theorem claimC8_defaultServerSsl (st : ManagerState) (sKey : serviceQueueKey)
    (rsCfg : ResourceConfig) (route : Route) (tls : RouteTLS)
    (caFile : Option String) (stats : vsSyncStats)
    (hdest : tls.destinationCACertificate = "") :
    ((∃ p, alLookup st.customProfiles (defaultServerSslKey sKey.Namespace) =
        some p) →
      (setServerSslProfile st sKey rsCfg route tls caFile stats).2.2.2 = false ∧
      (setServerSslProfile st sKey rsCfg route tls caFile stats).2.2.1 = stats ∧
      (setServerSslProfile st sKey rsCfg route tls caFile
          stats).1.customProfiles = st.customProfiles) ∧
    (alLookup st.customProfiles (defaultServerSslKey sKey.Namespace) = none →
      ∀ data, caFile = some data →
        (setServerSslProfile st sKey rsCfg route tls caFile stats).2.2.2 =
          true ∧
        (setServerSslProfile st sKey rsCfg route tls caFile
            stats).2.2.1.cpUpdated = stats.cpUpdated + 1 ∧
        alLookup (setServerSslProfile st sKey rsCfg route tls caFile
            stats).1.customProfiles (defaultServerSslKey sKey.Namespace) =
          some (NewCustomProfile defaultServerSslProfile data)) := by
  unfold setServerSslProfile
  rw [if_neg (not_not_intro hdest)]
  unfold loadDefaultCert defaultServerSslKey defaultServerSslProfile
  dsimp only
  constructor
  · rintro ⟨p, hp⟩
    rw [hp]
    exact ⟨rfl, rfl, rfl⟩
  · intro hno data hdata
    rw [hno, hdata]
    refine ⟨rfl, rfl, ?_⟩
    exact alLookup_alInsert_self _ _ _

/-- A reencrypt route with no destination CA, used by concrete scenarios. -/
def reencRoute0 : Route :=
  { name := "routeA", Namespace := "ns1", host := "a.example",
    toName := "svcA",
    tls := some { termination := "reencrypt", certificate := "",
                  key := "", destinationCACertificate := "" } }

/-- Witness for claim C8: on an empty store the CA file is read and the
profile installed with `cpUpdated` going from 0 to 1; a second sync in the
resulting state does not read the file and leaves the counter alone. -/
theorem claimC8_defaultServerSsl_witness :
    ((setServerSslProfile mgr0 { Namespace := "ns1", serviceName := "svcA" }
        emptyResourceConfig reencRoute0
        { termination := "reencrypt", certificate := "", key := "",
          destinationCACertificate := "" }
        (some "CADATA")
        { vsFound := 0, vsUpdated := 0, vsDeleted := 0, cpUpdated := 0,
          dgUpdated := 0 }).2.2.2 = true ∧
      (setServerSslProfile mgr0 { Namespace := "ns1", serviceName := "svcA" }
        emptyResourceConfig reencRoute0
        { termination := "reencrypt", certificate := "", key := "",
          destinationCACertificate := "" }
        (some "CADATA")
        { vsFound := 0, vsUpdated := 0, vsDeleted := 0, cpUpdated := 0,
          dgUpdated := 0 }).2.2.1.cpUpdated = 1) ∧
    ((setServerSslProfile
        { mgr0 with customProfiles :=
            [(defaultServerSslKey "ns1",
              NewCustomProfile defaultServerSslProfile "CADATA")] }
        { Namespace := "ns1", serviceName := "svcA" }
        emptyResourceConfig reencRoute0
        { termination := "reencrypt", certificate := "", key := "",
          destinationCACertificate := "" }
        (some "CADATA")
        { vsFound := 0, vsUpdated := 0, vsDeleted := 0, cpUpdated := 1,
          dgUpdated := 0 }).2.2.2 = false ∧
      (setServerSslProfile
        { mgr0 with customProfiles :=
            [(defaultServerSslKey "ns1",
              NewCustomProfile defaultServerSslProfile "CADATA")] }
        { Namespace := "ns1", serviceName := "svcA" }
        emptyResourceConfig reencRoute0
        { termination := "reencrypt", certificate := "", key := "",
          destinationCACertificate := "" }
        (some "CADATA")
        { vsFound := 0, vsUpdated := 0, vsDeleted := 0, cpUpdated := 1,
          dgUpdated := 0 }).2.2.1.cpUpdated = 1) := by
  constructor
  · have h := (claimC8_defaultServerSsl mgr0
      { Namespace := "ns1", serviceName := "svcA" } emptyResourceConfig
      reencRoute0
      { termination := "reencrypt", certificate := "", key := "",
        destinationCACertificate := "" }
      (some "CADATA")
      { vsFound := 0, vsUpdated := 0, vsDeleted := 0, cpUpdated := 0,
        dgUpdated := 0 } rfl).2 (by decide) "CADATA" rfl
    exact ⟨h.1, h.2.1⟩
  · have h := (claimC8_defaultServerSsl
      { mgr0 with customProfiles :=
          [(defaultServerSslKey "ns1",
            NewCustomProfile defaultServerSslProfile "CADATA")] }
      { Namespace := "ns1", serviceName := "svcA" } emptyResourceConfig
      reencRoute0
      { termination := "reencrypt", certificate := "", key := "",
        destinationCACertificate := "" }
      (some "CADATA")
      { vsFound := 0, vsUpdated := 0, vsDeleted := 0, cpUpdated := 1,
        dgUpdated := 0 } rfl).1
      ⟨NewCustomProfile defaultServerSslProfile "CADATA", by decide⟩
    exact ⟨h.1, by rw [h.2.1]⟩

/-- Claim C6.  `ProcessNodeUpdate` on a valid node list: while the
initial-state flag is still unset (the first call), the sorted address
list of schedulable nodes becomes the baseline, nothing is emitted and
the stored configs are untouched; once the flag is set, a call whose
sorted list differs from the baseline rewrites pool 0 of every stored
config (in particular every one with a positive node port) to exactly
the new address list paired with that config's node port, emits, and
replaces the baseline. -/
theorem claimC6_processNodeUpdate (st : ManagerState) (nodes : List Node)
    (addrs : List String)
    (haddr : getNodeAddresses st (some nodes) = Except.ok addrs) :
    (st.initialState = false →
      (ProcessNodeUpdate st (some nodes) false).2 = false ∧
      (ProcessNodeUpdate st (some nodes) false).1.oldNodes =
        sortStrings addrs ∧
      (ProcessNodeUpdate st (some nodes) false).1.resources = st.resources) ∧
    (st.initialState = true →
      ¬ sortStrings addrs = st.oldNodes →
      (ProcessNodeUpdate st (some nodes) false).2 = true ∧
      (ProcessNodeUpdate st (some nodes) false).1.oldNodes =
        sortStrings addrs ∧
      ∀ k cfg, (k, cfg) ∈ st.resources → cfg.metaData.nodePort > 0 →
        ¬ cfg.pools = [] →
        ∃ cfg', (k, cfg') ∈ (ProcessNodeUpdate st (some nodes) false).1.resources ∧
          (cfg'.pools.getD 0 emptyPool).members =
            (sortStrings addrs).map (fun node =>
              ({ address := node, port := cfg.metaData.nodePort,
                 session := "user-enabled" } : Member))) := by
  constructor
  · intro hinit
    simp only [ProcessNodeUpdate, haddr, hinit]
    exact ⟨rfl, rfl, rfl⟩
  · intro hinit hne
    simp only [ProcessNodeUpdate, haddr, hinit, if_true, Bool.false_eq_true,
      if_false, hne, ite_true, ite_false, if_pos hne]
    refine ⟨rfl, rfl, ?_⟩
    intro k cfg hmem hnp hpools
    refine ⟨setPoolZeroMembers cfg (sortStrings addrs), ?_, ?_⟩
    · exact List.mem_map.mpr ⟨(k, cfg), hmem, rfl⟩
    · cases hp : cfg.pools with
      | nil => exact absurd hp hpools
      | cons p rest => simp [setPoolZeroMembers, hp]

/-- Two schedulable nodes with external addresses, for concrete scenarios. -/
def node1 : Node :=
  { unschedulable := false,
    addresses := [{ addrType := "ExternalIP", address := "1.1.1.1" }] }

/-- A second schedulable node. -/
def node2 : Node :=
  { unschedulable := false,
    addresses := [{ addrType := "ExternalIP", address := "2.2.2.2" }] }

/-- A node-port `ResourceConfig` with one pool, for concrete scenarios. -/
def npConfig0 : ResourceConfig :=
  { emptyResourceConfig with
      pools := [{ name := "pool0", serviceName := "svcA", servicePort := 80,
                  members := [] }]
      metaData := { active := true, nodePort := 31080,
                    resourceType := "configmap" } }

/-- Service key of the concrete node-port scenario. -/
def svcKeyA : serviceKey :=
  { serviceName := "svcA", servicePort := 80, Namespace := "ns1" }

/-- Manager state past the initial sync, holding one node-port config and a
stale node baseline (for the claim C6 scenario). -/
def mgrNodesLater : ManagerState :=
  { mgr0 with
      initialState := true
      oldNodes := ["9.9.9.9"]
      resources := [((svcKeyA, "rs0"), npConfig0)] }

/-- Witness for claim C6: a first call only records the baseline; a later
differing call rewrites pool 0 and emits. -/
theorem claimC6_processNodeUpdate_witness :
    ((ProcessNodeUpdate mgr0 (some [node2, node1]) false).2 = false ∧
      (ProcessNodeUpdate mgr0 (some [node2, node1]) false).1.oldNodes =
        ["1.1.1.1", "2.2.2.2"]) ∧
    ((ProcessNodeUpdate mgrNodesLater (some [node2, node1]) false).2 = true ∧
      ∃ cfg', ((svcKeyA, "rs0"), cfg') ∈
          (ProcessNodeUpdate mgrNodesLater
            (some [node2, node1]) false).1.resources ∧
        (cfg'.pools.getD 0 emptyPool).members =
          [{ address := "1.1.1.1", port := 31080, session := "user-enabled" },
           { address := "2.2.2.2", port := 31080, session := "user-enabled" }]) := by
  constructor
  · have h := (claimC6_processNodeUpdate mgr0 [node2, node1]
      ["2.2.2.2", "1.1.1.1"] rfl).1 rfl
    refine ⟨h.1, ?_⟩
    rw [h.2.1]
    decide
  · have h := (claimC6_processNodeUpdate mgrNodesLater
      [node2, node1] ["2.2.2.2", "1.1.1.1"] rfl).2 rfl (by decide)
    refine ⟨h.1, ?_⟩
    obtain ⟨cfg', hmem, hmembers⟩ := h.2.2 (svcKeyA, "rs0") npConfig0
      (by decide) (by decide) (by decide)
    refine ⟨cfg', hmem, ?_⟩
    rw [hmembers]
    decide

theorem getD_set_self {α : Type} (l : List α) (i : Nat) (a d : α)
    (h : i < l.length) : (l.set i a).getD i d = a := by
  induction l generalizing i with
  | nil => simp at h
  | cons hd tl ih =>
      cases i with
      | zero => rfl
      | succ j =>
          have hj : j < tl.length := by simpa using h
          simpa [List.set, List.getD] using ih j hj

theorem getD_set_ne {α : Type} (l : List α) (i j : Nat) (a d : α)
    (h : ¬ j = i) : (l.set i a).getD j d = l.getD j d := by
  induction l generalizing i j with
  | nil => simp
  | cons hd tl ih =>
      cases i with
      | zero =>
          cases j with
          | zero => exact absurd rfl h
          | succ j' => rfl
      | succ i' =>
          cases j with
          | zero => rfl
          | succ j' =>
              have h' : ¬ j' = i' := fun hc => h (by rw [hc])
              simpa [List.set, List.getD] using ih i' j' h'

/-- A two-pool Ingress-style config with members in both pools, for the
claim C3 scenario. -/
def cfgTwoPools : ResourceConfig :=
  { emptyResourceConfig with
      pools :=
        [{ name := "p0", serviceName := "svcA", servicePort := 80,
           members := [{ address := "10.0.0.1", port := 8080,
                         session := "user-enabled" }] },
         { name := "p1", serviceName := "svcB", servicePort := 81,
           members := [{ address := "10.0.0.2", port := 8081,
                         session := "user-enabled" }] }]
      metaData := { active := true, nodePort := 0, resourceType := "ingress" } }

/-- Claim C3 fails on the code: deactivating a two-pool config clears only
the indexed pool, so the store ends up holding a config with
`active = false` whose second pool still has members. -/
theorem claimC3_counterexample :
    ∃ cfg', rGet (deactivateVirtualServer
        { mgr0 with resources := [((svcKeyA, "rs1"), cfgTwoPools)] }
        svcKeyA "rs1" cfgTwoPools 0).1.resources svcKeyA "rs1" = some cfg' ∧
      cfg'.metaData.active = false ∧
      ¬ (cfg'.pools.getD 1 emptyPool).members = [] := by
  refine ⟨{ cfgTwoPools with
      metaData := { cfgTwoPools.metaData with active := false }
      pools := cfgTwoPools.pools.set 0
        { cfgTwoPools.pools.getD 0 emptyPool with members := [] } },
    ?_, ?_, ?_⟩
  · decide
  · decide
  · decide

/-- Claim C3, amended: `deactivateVirtualServer` on a config whose entry is
stored clears the activation flag and empties only the pool at the given
index; every other pool — in particular the remaining pools of a config
with more than one pool — keeps its members, and the resulting config is
what the store holds afterwards.  The spec's invariant "active = false
implies all pools empty" therefore only holds pool-wise. -/
theorem claimC3_amended (st : ManagerState) (sKey : serviceKey)
    (rsName : String) (rsCfg : ResourceConfig) (index : Nat)
    (rs : ResourceConfig)
    (hfound : rGet st.resources sKey rsName = some rs)
    (hidx : index < rsCfg.pools.length) :
    (deactivateVirtualServer st sKey rsName rsCfg index).2.1.metaData.active =
      false ∧
    ((deactivateVirtualServer st sKey rsName rsCfg
        index).2.1.pools.getD index emptyPool).members = [] ∧
    (∀ j, ¬ j = index →
      (deactivateVirtualServer st sKey rsName rsCfg index).2.1.pools.getD j
          emptyPool =
        rsCfg.pools.getD j emptyPool) ∧
    rGet (deactivateVirtualServer st sKey rsName rsCfg index).1.resources
        sKey rsName =
      some (deactivateVirtualServer st sKey rsName rsCfg index).2.1 := by
  unfold deactivateVirtualServer
  rw [hfound]
  dsimp only
  set pl := { rsCfg.pools.getD index emptyPool with members := ([] : List Member) }
    with hpl
  by_cases heq : rs = { rsCfg with
      metaData := { rsCfg.metaData with active := false }
      pools := rsCfg.pools.set index pl }
  · rw [if_neg (not_not_intro heq)]
    refine ⟨rfl, ?_, ?_, ?_⟩
    · rw [getD_set_self _ _ _ _ hidx]
    · intro j hj
      exact getD_set_ne _ _ _ _ _ hj
    · rw [hfound, heq]
  · rw [if_pos heq]
    refine ⟨rfl, ?_, ?_, ?_⟩
    · rw [getD_set_self _ _ _ _ hidx]
    · intro j hj
      exact getD_set_ne _ _ _ _ _ hj
    · exact alLookup_alInsert_self _ _ _

/-- Witness for (amended) claim C3 on the two-pool scenario. -/
theorem claimC3_amended_witness :
    (deactivateVirtualServer
        { mgr0 with resources := [((svcKeyA, "rs1"), cfgTwoPools)] }
        svcKeyA "rs1" cfgTwoPools 0).2.1.metaData.active = false ∧
    ((deactivateVirtualServer
        { mgr0 with resources := [((svcKeyA, "rs1"), cfgTwoPools)] }
        svcKeyA "rs1" cfgTwoPools 0).2.1.pools.getD 0 emptyPool).members =
      [] ∧
    (deactivateVirtualServer
        { mgr0 with resources := [((svcKeyA, "rs1"), cfgTwoPools)] }
        svcKeyA "rs1" cfgTwoPools 0).2.1.pools.getD 1 emptyPool =
      cfgTwoPools.pools.getD 1 emptyPool := by
  have h := claimC3_amended
    { mgr0 with resources := [((svcKeyA, "rs1"), cfgTwoPools)] }
    svcKeyA "rs1" cfgTwoPools 0 cfgTwoPools (by decide) (by decide)
  exact ⟨h.1, h.2.1, h.2.2.1 1 (by decide)⟩

/-- An informer bundle with an empty endpoints cache, for concrete
scenarios. -/
def appInf0 : AppInf := { endptStore := [] }

/-- A one-pool config for service `svcA`, with members, for concrete
scenarios. -/
def cfgOnePool : ResourceConfig :=
  { emptyResourceConfig with
      pools := [{ name := "p0", serviceName := "svcA", servicePort := 80,
                  members := [{ address := "10.1.1.1", port := 8080,
                                session := "user-enabled" }] }]
      metaData := { active := true, nodePort := 0,
                    resourceType := "configmap" } }

/-- All-zero sync statistics. -/
def stats0 : vsSyncStats :=
  { vsFound := 0, vsUpdated := 0, vsDeleted := 0, cpUpdated := 0,
    dgUpdated := 0 }

/-- Claim C2 fails on the code: with the service gone, `handleConfigForType`
returns `ours = false` with a positive `updated` count (the deactivation
was persisted), and the `syncConfigMaps` call site still adds that count
to the statistics. -/
theorem claimC2_counterexample :
    (handleConfigForType mgr0 appInf0 cfgOnePool
        { Namespace := "ns1", serviceName := "svcA" } [] "rs1" [] none
        "").ours = false ∧
    ¬ syncConfigMapsAddStats stats0
        (handleConfigForType mgr0 appInf0 cfgOnePool
          { Namespace := "ns1", serviceName := "svcA" } [] "rs1" [] none
          "").ours
        (handleConfigForType mgr0 appInf0 cfgOnePool
          { Namespace := "ns1", serviceName := "svcA" } [] "rs1" [] none
          "").found
        (handleConfigForType mgr0 appInf0 cfgOnePool
          { Namespace := "ns1", serviceName := "svcA" } [] "rs1" [] none
          "").updated = stats0 := by
  refine ⟨by decide, by decide⟩

/-- When `handleConfigForType` reports `ours = false` its `found` count is
zero (it returns from the no-pool branch or the nil-service branch, both
of which never reach the `vsFound` increment). -/
theorem handleConfig_notOurs_foundZero (st : ManagerState) (appInf : AppInf)
    (rsCfg : ResourceConfig) (sKey : serviceQueueKey)
    (rsMap : List (Int × List ResourceConfig)) (rsName : String)
    (svcPortMap : List Int) (svc : Option Service) (currRouteSvc : String)
    (h : (handleConfigForType st appInf rsCfg sKey rsMap rsName svcPortMap svc
        currRouteSvc).ours = false) :
    (handleConfigForType st appInf rsCfg sKey rsMap rsName svcPortMap svc
        currRouteSvc).found = 0 := by
  unfold handleConfigForType at h ⊢
  cases hIdx : rsCfg.pools.findIdx? (fun pl => pl.serviceName == sKey.serviceName) with
  | none => rfl
  | some plIdx =>
      rw [hIdx] at h
      cases svc with
      | none => rfl
      | some s =>
          dsimp only at h
          exact absurd h (by simp)

/-- Claim C2, amended: at all three call sites (`syncConfigMaps`,
`syncIngresses`, `syncRoutes`) the `updated` count returned by
`handleConfigForType` is added to the statistics even when the first
return value is false; only `found` — which is always zero in that case —
is skipped.  When the first return value is true, both counts are added
(with `syncIngresses` possibly subtracting one under its multi-service
guard, not modelled in this equation for the `ours = false` case). -/
theorem claimC2_amended :
    (∀ (stats : vsSyncStats) (f u : Nat),
      syncConfigMapsAddStats stats false f u =
        { stats with vsUpdated := stats.vsUpdated + u }) ∧
    (∀ (stats : vsSyncStats) (f u : Nat),
      syncRoutesAddStats stats false f u =
        { stats with vsUpdated := stats.vsUpdated + u }) ∧
    (∀ (rs : Resources) (numPools : Nat) (rsName : String)
        (stats : vsSyncStats) (f u : Nat),
      syncIngressesAddStats rs numPools rsName stats false f u =
        { stats with vsUpdated := stats.vsUpdated + u }) ∧
    (∀ (st : ManagerState) (appInf : AppInf) (rsCfg : ResourceConfig)
        (sKey : serviceQueueKey) (rsMap : List (Int × List ResourceConfig))
        (rsName : String) (svcPortMap : List Int) (svc : Option Service)
        (currRouteSvc : String),
      (handleConfigForType st appInf rsCfg sKey rsMap rsName svcPortMap svc
          currRouteSvc).ours = false →
      (handleConfigForType st appInf rsCfg sKey rsMap rsName svcPortMap svc
          currRouteSvc).found = 0) ∧
    (∀ (stats : vsSyncStats) (f u : Nat),
      syncConfigMapsAddStats stats true f u =
        { stats with vsFound := stats.vsFound + f,
                     vsUpdated := stats.vsUpdated + u }) ∧
    (∀ (stats : vsSyncStats) (f u : Nat),
      syncRoutesAddStats stats true f u =
        { stats with vsFound := stats.vsFound + f,
                     vsUpdated := stats.vsUpdated + u }) := by
  refine ⟨fun _ _ _ => rfl, fun _ _ _ => rfl, fun _ _ _ _ _ _ => rfl,
    ?_, fun _ _ _ => rfl, fun _ _ _ => rfl⟩
  intro st appInf rsCfg sKey rsMap rsName svcPortMap svc currRouteSvc h
  exact handleConfig_notOurs_foundZero st appInf rsCfg sKey rsMap rsName
    svcPortMap svc currRouteSvc h

/-- Witness for (amended) claim C2 at the concrete nil-service scenario:
`ours = false`, `updated = 2`, `found = 0`, and the call site adds the 2. -/
theorem claimC2_amended_witness :
    syncConfigMapsAddStats stats0 false 0 2 =
      { vsFound := 0, vsUpdated := 2, vsDeleted := 0, cpUpdated := 0,
        dgUpdated := 0 } ∧
    (handleConfigForType mgr0 appInf0 cfgOnePool
        { Namespace := "ns1", serviceName := "svcA" } [] "rs1" [] none
        "").found = 0 := by
  refine ⟨claimC2_amended.1 stats0 0 2, ?_⟩
  exact claimC2_amended.2.2.2.1 mgr0 appInf0 cfgOnePool
    { Namespace := "ns1", serviceName := "svcA" } [] "rs1" [] none ""
    (by decide)

/-- State of the `handleIngressTls` TLS loop after processing a prefix of
the entries: `(manager, config, cpUpdated, updateState)`. -/
def ingressTlsLoopState (st : ManagerState) (rsCfg : ResourceConfig)
    (ing : Ingress) (secretFetch : String → Option Secret)
    (es : List IngressTLS) : ManagerState × ResourceConfig × Bool × Bool :=
  es.foldl (handleIngressTlsStep ing.Namespace secretFetch)
    (st, rsCfg, false, false)

/-- Claim C10.  On the HTTPS virtual, `handleIngressTls` returns the Go
local `cpUpdated`, which after the loop holds only the status of the last
TLS entry whose secret was processed: whenever the last entry's secret is
found and its `handleSslProfile` reports no update, the function returns
false — no matter what the earlier entries did — and the caller's
`cpUpdated` statistic is left unchanged. -/
theorem claimC10_handleIngressTls (st st₂ : ManagerState)
    (rsCfg : ResourceConfig) (ing : Ingress)
    (secretFetch : String → Option Secret) (va : VirtualAddress)
    (es : List IngressTLS) (e : IngressTLS) (sec : Secret)
    (hva : rsCfg.virtual.virtualAddress = some va)
    (hbind : ¬ va.bindAddr = "")
    (hport : va.port =
      (match alLookup ing.annotations "virtual-server.f5.com/https-port" with
        | some port => goParseInt32 port
        | none => DEFAULT_HTTPS_PORT))
    (htls : ing.tls = es ++ [e])
    (hsec : secretFetch e.secretName = some sec)
    (hlast : handleSslProfile
        (ingressTlsLoopState st rsCfg ing secretFetch es).1
        (ingressTlsLoopState st rsCfg ing secretFetch es).2.1
        sec ing.Namespace = (none, st₂, false)) :
    (handleIngressTls st rsCfg ing secretFetch).2.2 = false ∧
    ∀ stats, syncIngressesTlsAddStats stats
        (handleIngressTls st rsCfg ing secretFetch).2.2 = stats := by
  have hmain : (handleIngressTls st rsCfg ing secretFetch).2.2 = false := by
    unfold handleIngressTls
    rw [htls]
    have hlen : ¬ ((es ++ [e]).length = 0) := by simp
    rw [if_neg hlen, hva]
    dsimp only
    rw [if_neg hbind, if_pos hport, List.foldl_append]
    have hmid : es.foldl (handleIngressTlsStep ing.Namespace secretFetch)
        (st, rsCfg, false, false) =
        ingressTlsLoopState st rsCfg ing secretFetch es := rfl
    rw [hmid]
    dsimp only [List.foldl]
    unfold handleIngressTlsStep
    rw [hsec]
    dsimp only
    rw [hlast]
  refine ⟨hmain, fun stats => ?_⟩
  rw [hmain]
  rfl

/-- First TLS secret of the claim C10 scenario (its stored profile is
stale, so processing it reports an update). -/
def secW1 : Secret :=
  { name := "sec1", data := [("tls.crt", "NEWCERT"), ("tls.key", "K1")] }

/-- Second TLS secret of the claim C10 scenario (never seen before, so its
first insert reports no update). -/
def secW2 : Secret :=
  { name := "sec2", data := [("tls.crt", "C2"), ("tls.key", "K2")] }

/-- Secret lookup of the claim C10 scenario. -/
def fetchW : String → Option Secret := fun name =>
  if name = "sec1" then some secW1
  else if name = "sec2" then some secW2
  else none

/-- HTTPS virtual of the claim C10 scenario (bind address set, port 443). -/
def cfgHttps : ResourceConfig :=
  { emptyResourceConfig with
      virtual := { emptyResourceConfig.virtual with
        virtualServerName := "ing1-ingress"
        partition := "velcro"
        virtualAddress := some { bindAddr := "1.2.3.4", port := 443 } } }

/-- Ingress with two TLS entries, no annotations, of the claim C10
scenario. -/
def ingW : Ingress :=
  { Namespace := "nsX", annotations := [],
    tls := [{ secretName := "sec1" }, { secretName := "sec2" }] }

/-- Manager state pre-seeded with a stale profile for `sec1`. -/
def mgrSeeded : ManagerState :=
  { mgr0 with customProfiles :=
      [({ name := "sec1", Namespace := "nsX", resourceName := "ing1-ingress" },
        { name := "sec1", partition := "velcro", context := customProfileClient,
          cert := "OLDCERT", key := "K1", serverName := "" })] }

/-- Manager state after the last entry of the claim C10 scenario. -/
def mgrSeeded2 : ManagerState :=
  (handleSslProfile
    (ingressTlsLoopState mgrSeeded cfgHttps ingW fetchW
      [{ secretName := "sec1" }]).1
    (ingressTlsLoopState mgrSeeded cfgHttps ingW fetchW
      [{ secretName := "sec1" }]).2.1
    secW2 "nsX").2.1

/-- Witness for claim C10: the first entry changed a profile
(`updateState = true` after it), yet `handleIngressTls` returns false
because the last entry's profile was a first insert, and the caller's
statistics are unchanged. -/
theorem claimC10_handleIngressTls_witness :
    (ingressTlsLoopState mgrSeeded cfgHttps ingW fetchW
        [{ secretName := "sec1" }]).2.2.2 = true ∧
    (handleIngressTls mgrSeeded cfgHttps ingW fetchW).2.2 = false ∧
    syncIngressesTlsAddStats stats0
        (handleIngressTls mgrSeeded cfgHttps ingW fetchW).2.2 = stats0 := by
  have h := claimC10_handleIngressTls mgrSeeded mgrSeeded2 cfgHttps ingW
    fetchW { bindAddr := "1.2.3.4", port := 443 }
    [{ secretName := "sec1" }] { secretName := "sec2" } secW2
    rfl (by decide) rfl rfl (by decide) (by decide)
  exact ⟨by decide, h.1, h.2 stats0⟩

/-- What the Go pool-removal loop actually computes, as a clean recursion: a
single left-to-right pass that, after removing a matching pool, skips the
element shifted into its place. -/
def removeSkipPass (s : String) : List Pool → List Pool
  | [] => []
  | p :: rest =>
      if p.serviceName = s then
        match rest with
        | [] => []
        | q :: rest2 => q :: removeSkipPass s rest2
      else p :: removeSkipPass s rest

theorem removeSkipPass_cons_neg (s : String) (p : Pool) (rest : List Pool)
    (h : ¬ p.serviceName = s) :
    removeSkipPass s (p :: rest) = p :: removeSkipPass s rest := by
  cases rest <;> simp [removeSkipPass, h]

theorem removeSkipPass_singleton_pos (s : String) (p : Pool)
    (h : p.serviceName = s) : removeSkipPass s [p] = [] := by
  simp [removeSkipPass, h]

theorem removeSkipPass_cons_cons_pos (s : String) (p q : Pool)
    (rest : List Pool) (h : p.serviceName = s) :
    removeSkipPass s (p :: q :: rest) = q :: removeSkipPass s rest := by
  simp [removeSkipPass, h]

theorem take_len_append {α : Type} (P rest : List α) :
    (P ++ rest).take P.length = P := by
  induction P with
  | nil => rfl
  | cons hd tl ih => simp [ih]

theorem drop_len_append {α : Type} (P rest : List α) :
    (P ++ rest).drop P.length = rest := by
  induction P with
  | nil => rfl
  | cons hd tl ih => simp [ih]

theorem getD_len_append {α : Type} (P rest : List α) (d : α) :
    (P ++ rest).getD P.length d = rest.getD 0 d := by
  induction P with
  | nil => rfl
  | cons hd tl ih => simpa [List.getD] using ih

theorem getD_ge_len_append {α : Type} (P rest : List α) (d : α) (k : Nat)
    (h : P.length ≤ k) : (P ++ rest).getD k d = rest.getD (k - P.length) d := by
  induction P generalizing k with
  | nil => simp
  | cons hd tl ih =>
      cases k with
      | zero => simp at h
      | succ k' =>
          have h' : tl.length ≤ k' := Nat.le_of_succ_le_succ h
          simpa [List.getD, Nat.succ_sub_succ] using ih k' h'

theorem getD_all_notmatch (rest : List Pool) (s : String) (hs : ¬ s = "")
    (hall : ∀ p ∈ rest, ¬ p.serviceName = s) (k : Nat) :
    ¬ (rest.getD k emptyPool).serviceName = s := by
  induction rest generalizing k with
  | nil =>
      intro hc
      exact hs (by simpa [emptyPool] using hc.symm)
  | cons hd tl ih =>
      cases k with
      | zero => exact hall hd (by simp)
      | succ k' =>
          exact ih (fun p hp => hall p (by simp [hp])) k'

/-- Once every position at or after `j` fails the match, the Go removal loop
is a no-op. -/
theorem poolRemoveLoop_noop (s : String) (fuel : Nat) (A : List Pool)
    (j m : Nat)
    (h : ∀ k, j ≤ k → ¬ (A.getD k emptyPool).serviceName = s) :
    poolRemoveLoop s fuel j A m = (A, m) := by
  induction fuel generalizing j with
  | zero => rfl
  | succ fuel ih =>
      simp only [poolRemoveLoop]
      rw [if_neg (h j (Nat.le_refl j))]
      exact ih (j + 1) (fun k hk => h k (Nat.le_of_succ_le hk))

/-- Invariant of the Go pool-removal loop: with a finalized prefix `P`, an
active middle `M` and a non-matching junk tail `Z`, the loop produces `P`
followed by the skip-pass over `M`. -/
theorem poolRemoveLoop_invariant (s : String) (hs : ¬ s = "") :
    ∀ (fuel : Nat) (P M Z : List Pool),
      fuel = M.length + Z.length →
      (∀ p ∈ Z, ¬ p.serviceName = s) →
      (poolRemoveLoop s fuel P.length (P ++ M ++ Z)
          (P.length + M.length)).1.take
        (poolRemoveLoop s fuel P.length (P ++ M ++ Z)
          (P.length + M.length)).2 =
      P ++ removeSkipPass s M := by
  intro fuel
  induction fuel with
  | zero =>
      intro P M Z hfuel hZ
      have hM : M = [] := List.length_eq_zero.mp (by omega)
      have hZ0 : Z = [] := List.length_eq_zero.mp (by omega)
      subst hM; subst hZ0
      simp only [poolRemoveLoop, List.append_nil, Nat.add_zero,
        removeSkipPass]
      exact List.take_length P
  | succ fuel ih =>
      intro P M Z hfuel hZ
      cases M with
      | nil =>
          simp only [List.append_nil, List.length_nil, Nat.add_zero]
          have hnoop : poolRemoveLoop s (fuel + 1) P.length (P ++ Z)
              P.length = (P ++ Z, P.length) := by
            apply poolRemoveLoop_noop
            intro k hk
            rw [getD_ge_len_append P Z emptyPool k hk]
            exact getD_all_notmatch Z s hs hZ (k - P.length)
          rw [hnoop]
          simp only [removeSkipPass]
          exact (take_len_append P Z).trans (List.append_nil P).symm
      | cons p M' =>
          have hgetj : ((P ++ (p :: M') ++ Z).getD P.length emptyPool) = p := by
            rw [List.append_assoc, getD_len_append]
            rfl
          simp only [poolRemoveLoop]
          rw [hgetj]
          by_cases hmatch : p.serviceName = s
          · rw [if_pos hmatch]
            have hshift : shiftRemovePool (P ++ (p :: M') ++ Z) P.length
                (P.length + (p :: M').length) = P ++ M' ++ [emptyPool] ++ Z := by
              unfold shiftRemovePool
              have h1 : (P ++ (p :: M') ++ Z).take P.length = P := by
                rw [List.append_assoc]; exact take_len_append P _
              have h2 : (P ++ (p :: M') ++ Z).drop (P.length + 1) = M' ++ Z := by
                have hA : P ++ (p :: M') ++ Z = (P ++ [p]) ++ (M' ++ Z) := by
                  simp
                have hlen : P.length + 1 = (P ++ [p] : List Pool).length := by
                  simp
                rw [hA, hlen]
                exact drop_len_append _ _
              have h3 : (P.length + (p :: M').length - 1 - P.length) =
                  M'.length := by simp
              have h4 : (P ++ (p :: M') ++ Z).drop
                  (P.length + (p :: M').length) = Z := by
                have hA : P ++ (p :: M') ++ Z = (P ++ (p :: M')) ++ Z := by simp
                have hlen : P.length + (p :: M').length =
                    (P ++ (p :: M') : List Pool).length := by simp
                rw [hA, hlen]
                exact drop_len_append _ _
              rw [h1, h2, h3, h4, take_len_append]
            have harith : P.length + (p :: M').length - 1 =
                P.length + M'.length := by simp
            rw [hshift, harith]
            cases M' with
            | nil =>
                rw [removeSkipPass_singleton_pos s p hmatch]
                simp only [List.append_nil, List.nil_append, List.length_nil,
                  Nat.add_zero]
                have hnoop : poolRemoveLoop s fuel (P.length + 1)
                    (P ++ [emptyPool] ++ Z) P.length =
                    (P ++ [emptyPool] ++ Z, P.length) := by
                  apply poolRemoveLoop_noop
                  intro k hk
                  rw [List.append_assoc]
                  rw [getD_ge_len_append P ([emptyPool] ++ Z) emptyPool k
                    (Nat.le_of_succ_le hk)]
                  refine getD_all_notmatch ([emptyPool] ++ Z) s hs ?_ _
                  intro q hq
                  rcases List.mem_append.mp hq with hq1 | hq2
                  · intro hc
                    exact hs (by
                      have : q = emptyPool := by simpa using hq1
                      rw [this] at hc
                      exact hc.symm)
                  · exact hZ q hq2
                rw [hnoop]
                have htk : (P ++ [emptyPool] ++ Z).take P.length = P := by
                  rw [List.append_assoc]
                  exact take_len_append P _
                rw [htk]
            | cons q M'' =>
                rw [removeSkipPass_cons_cons_pos s p q M'' hmatch]
                have e2 : P ++ (q :: M'') ++ [emptyPool] ++ Z =
                    (P ++ [q]) ++ M'' ++ ([emptyPool] ++ Z) := by simp
                have e3 : P.length + (q :: M'').length =
                    (P ++ [q] : List Pool).length + M''.length := by
                  simp; omega
                have e1 : P.length + 1 = (P ++ [q] : List Pool).length := by
                  simp
                rw [e2, e3, e1]
                have hfuel' : fuel = M''.length + ([emptyPool] ++ Z).length := by
                  simp at hfuel ⊢
                  omega
                have hZ' : ∀ r ∈ [emptyPool] ++ Z, ¬ r.serviceName = s := by
                  intro r hr
                  rcases List.mem_append.mp hr with hr1 | hr2
                  · intro hc
                    exact hs (by
                      have : r = emptyPool := by simpa using hr1
                      rw [this] at hc
                      exact hc.symm)
                  · exact hZ r hr2
                rw [ih (P ++ [q]) M'' ([emptyPool] ++ Z) hfuel' hZ']
                simp
          · rw [if_neg hmatch]
            have e2 : P ++ (p :: M') ++ Z = (P ++ [p]) ++ M' ++ Z := by simp
            have e3 : P.length + (p :: M').length =
                (P ++ [p] : List Pool).length + M'.length := by
              simp; omega
            have e1 : P.length + 1 = (P ++ [p] : List Pool).length := by simp
            rw [e2, e3, e1]
            have hfuel' : fuel = M'.length + Z.length := by
              simp at hfuel
              omega
            rw [ih (P ++ [p]) M' Z hfuel' hZ,
              removeSkipPass_cons_neg s p M' hmatch]
            simp

/-- The Go remove-while-iterating pool loop equals the skip-pass (for a
non-empty service name, which rules out matching the zero-filled
slots). -/
theorem removeMatchingPools_eq_removeSkipPass (s : String) (pools : List Pool)
    (hs : ¬ s = "") :
    removeMatchingPools s pools = removeSkipPass s pools := by
  have h := poolRemoveLoop_invariant s hs pools.length [] pools []
    (by simp) (by simp)
  simpa [removeMatchingPools] using h

/-- First of two adjacent pools bound to the same service (multi-port). -/
def poolA80 : Pool :=
  { name := "pa80", serviceName := "svcA", servicePort := 80, members := [] }

/-- Second of two adjacent pools bound to the same service. -/
def poolA81 : Pool :=
  { name := "pa81", serviceName := "svcA", servicePort := 81, members := [] }

/-- A stored config with two adjacent pools for the same service. -/
def cfgDupPools : ResourceConfig :=
  { emptyResourceConfig with
      pools := [poolA80, poolA81]
      metaData := { active := true, nodePort := 0, resourceType := "ingress" } }

/-- Manager state holding `cfgDupPools` under resource name `rs1`. -/
def mgrDup : ManagerState :=
  { mgr0 with resources := [((svcKeyA, "rs1"), cfgDupPools)] }

/-- Claim C7 fails on the code: a candidate with no pool for the queued
service makes `handleConfigForType` return `(false, 0, 0)`, but the
removal loop skips the pool shifted into the removed slot, so a stored
copy with two adjacent pools for the service keeps one of them. -/
theorem claimC7_counterexample :
    (handleConfigForType mgrDup appInf0 emptyResourceConfig
        { Namespace := "ns1", serviceName := "svcA" } [] "rs1" [] none
        "").ours = false ∧
    ∃ cfg', rGet (handleConfigForType mgrDup appInf0 emptyResourceConfig
          { Namespace := "ns1", serviceName := "svcA" } [] "rs1" [] none
          "").st.resources svcKeyA "rs1" = some cfg' ∧
      cfg'.pools.any (fun p => p.serviceName = "svcA") = true := by
  refine ⟨by decide, ⟨{ cfgDupPools with pools := [poolA81] }, by decide,
    by decide⟩⟩

theorem foldAssign_lookup_ne (f : ResourceConfig → ResourceConfig)
    (rsName : String) (L : List (ResourceConfig × serviceKey))
    (rs : Resources) (k : serviceKey × String)
    (h : ∀ e ∈ L, ¬ ((e.2, rsName) = k)) :
    alLookup (L.foldl (fun rs e => rAssign rs e.2 rsName (f e.1)) rs) k =
      alLookup rs k := by
  induction L generalizing rs with
  | nil => rfl
  | cons e L' ih =>
      simp only [List.foldl_cons]
      rw [ih _ (fun e' he' => h e' (by simp [he']))]
      exact alLookup_alInsert_ne rs (e.2, rsName) k (f e.1)
        (fun hc => (h e (by simp)) hc.symm)

theorem mem_rGetAllWithName (rs : Resources) (nm : String)
    (e : ResourceConfig × serviceKey) (h : e ∈ rGetAllWithName rs nm) :
    ((e.2, nm), e.1) ∈ rs := by
  unfold rGetAllWithName at h
  rcases List.mem_filterMap.mp h with ⟨entry, hmem, hfn⟩
  obtain ⟨⟨k1, n1⟩, c⟩ := entry
  by_cases hn : n1 = nm
  · simp only [if_pos hn] at hfn
    have he := Option.some.inj hfn
    rw [← he]
    rw [← hn]
    exact hmem
  · simp only [if_neg hn] at hfn
    exact Option.noConfusion hfn

theorem getAll_decompose (nm : String) :
    ∀ (rs : Resources) (sk : serviceKey) (cfg : ResourceConfig),
      (rs.map Prod.fst).Nodup →
      alLookup rs (sk, nm) = some cfg →
      ∃ L1 L2, rGetAllWithName rs nm = L1 ++ (cfg, sk) :: L2 ∧
        ∀ e ∈ L2, ¬ e.2 = sk := by
  intro rs
  induction rs with
  | nil => intro sk cfg _ hlook; simp [alLookup] at hlook
  | cons entry rest ih =>
      intro sk cfg hnodup hlook
      obtain ⟨⟨k1, n1⟩, c⟩ := entry
      rw [List.map_cons, List.nodup_cons] at hnodup
      obtain ⟨hnotmem, hnd⟩ := hnodup
      by_cases hk : ((k1, n1) : serviceKey × String) = (sk, nm)
      · have hc : c = cfg := by
          unfold alLookup at hlook
          rw [if_pos hk] at hlook
          exact Option.some.inj hlook
        have hk1 : k1 = sk := congrArg Prod.fst hk
        have hn1 : n1 = nm := congrArg Prod.snd hk
        refine ⟨[], rGetAllWithName rest nm, ?_, ?_⟩
        · simp only [rGetAllWithName, List.filterMap_cons, if_pos hn1, hc, hk1,
            List.nil_append]
        · intro e he hesk
          have hmem := mem_rGetAllWithName rest nm e he
          have hmapmem : ((e.2, nm) : serviceKey × String) ∈
              rest.map Prod.fst := List.mem_map.mpr ⟨_, hmem, rfl⟩
          rw [hesk] at hmapmem
          rw [hk] at hnotmem
          exact hnotmem hmapmem
      · have hlook' : alLookup rest (sk, nm) = some cfg := by
          unfold alLookup at hlook
          rwa [if_neg hk] at hlook
        obtain ⟨L1, L2, hdec, hL2⟩ := ih sk cfg hnd hlook'
        by_cases hn : n1 = nm
        · refine ⟨(c, k1) :: L1, L2, ?_, hL2⟩
          simp only [rGetAllWithName, List.filterMap_cons, if_pos hn,
            List.cons_append]
          rw [← hdec]
          rfl
        · refine ⟨L1, L2, ?_, hL2⟩
          simp only [rGetAllWithName, List.filterMap_cons, if_neg hn]
          rw [← hdec]
          rfl

theorem foldAssign_lookup_target (f : ResourceConfig → ResourceConfig)
    (rsName : String) (rs0 : Resources) (sk : serviceKey)
    (cfg : ResourceConfig) (hnodup : (rs0.map Prod.fst).Nodup)
    (hlook : alLookup rs0 (sk, rsName) = some cfg) :
    alLookup ((rGetAllWithName rs0 rsName).foldl
        (fun rs e => rAssign rs e.2 rsName (f e.1)) rs0) (sk, rsName) =
      some (f cfg) := by
  obtain ⟨L1, L2, hdec, hL2⟩ := getAll_decompose rsName rs0 sk cfg hnodup hlook
  rw [hdec, List.foldl_append, List.foldl_cons]
  rw [foldAssign_lookup_ne f rsName L2 _ (sk, rsName)
    (fun e he hc => hL2 e he (congrArg Prod.fst hc))]
  exact alLookup_alInsert_self _ _ _

/-- Claim C7, amended: when the candidate config has no pool for the queued
key's service, `handleConfigForType` returns `ours = false` with `found`
and `updated` zero and leaves `rsMap` and the candidate untouched, and it
rewrites every stored copy of the resource name with a single
left-to-right removal pass that skips the element shifted into a removed
slot (`removeSkipPass`): all pools with the service name are removed
except that of two ADJACENT such pools only the first is removed; stored
entries under other resource names are untouched. -/
theorem claimC7_amended (st : ManagerState) (appInf : AppInf)
    (rsCfg : ResourceConfig) (sKey : serviceQueueKey)
    (rsMap : List (Int × List ResourceConfig)) (rsName : String)
    (svcPortMap : List Int) (svc : Option Service) (currRouteSvc : String)
    (hno : ∀ p ∈ rsCfg.pools, ¬ p.serviceName = sKey.serviceName)
    (hs : ¬ sKey.serviceName = "")
    (hnodup : (st.resources.map Prod.fst).Nodup) :
    (handleConfigForType st appInf rsCfg sKey rsMap rsName svcPortMap svc
        currRouteSvc).ours = false ∧
    (handleConfigForType st appInf rsCfg sKey rsMap rsName svcPortMap svc
        currRouteSvc).found = 0 ∧
    (handleConfigForType st appInf rsCfg sKey rsMap rsName svcPortMap svc
        currRouteSvc).updated = 0 ∧
    (handleConfigForType st appInf rsCfg sKey rsMap rsName svcPortMap svc
        currRouteSvc).rsMap = rsMap ∧
    (handleConfigForType st appInf rsCfg sKey rsMap rsName svcPortMap svc
        currRouteSvc).rsCfg = rsCfg ∧
    (∀ sk cfg, rGet st.resources sk rsName = some cfg →
      rGet (handleConfigForType st appInf rsCfg sKey rsMap rsName svcPortMap
          svc currRouteSvc).st.resources sk rsName =
        some { cfg with
          pools := removeSkipPass sKey.serviceName cfg.pools }) ∧
    (∀ sk nm, ¬ nm = rsName →
      rGet (handleConfigForType st appInf rsCfg sKey rsMap rsName svcPortMap
          svc currRouteSvc).st.resources sk nm = rGet st.resources sk nm) := by
  have hidx : rsCfg.pools.findIdx?
      (fun pl => pl.serviceName == sKey.serviceName) = none := by
    rw [List.findIdx?_eq_none_iff]
    intro x hx
    simpa using hno x hx
  unfold handleConfigForType
  rw [hidx]
  dsimp only
  refine ⟨rfl, rfl, rfl, rfl, rfl, ?_, ?_⟩
  · intro sk cfg hlook
    have h := foldAssign_lookup_target
      (fun cfg => { cfg with
        pools := removeMatchingPools sKey.serviceName cfg.pools })
      rsName st.resources sk cfg hnodup hlook
    dsimp only at h
    rw [removeMatchingPools_eq_removeSkipPass sKey.serviceName cfg.pools hs]
      at h
    exact h
  · intro sk nm hnm
    exact foldAssign_lookup_ne
      (fun cfg => { cfg with
        pools := removeMatchingPools sKey.serviceName cfg.pools })
      rsName (rGetAllWithName st.resources rsName) st.resources (sk, nm)
      (fun e he hc => hnm (congrArg Prod.snd hc).symm)

/-- Witness for (amended) claim C7 on the adjacent-duplicate scenario: the
branch returns `(false, 0, 0)` and the stored copy becomes exactly the
skip-pass result, which here keeps the second adjacent pool. -/
theorem claimC7_amended_witness :
    (handleConfigForType mgrDup appInf0 emptyResourceConfig
        { Namespace := "ns1", serviceName := "svcA" } [] "rs1" [] none
        "").ours = false ∧
    rGet (handleConfigForType mgrDup appInf0 emptyResourceConfig
        { Namespace := "ns1", serviceName := "svcA" } [] "rs1" [] none
        "").st.resources svcKeyA "rs1" =
      some { cfgDupPools with pools := [poolA81] } := by
  have h := claimC7_amended mgrDup appInf0 emptyResourceConfig
    { Namespace := "ns1", serviceName := "svcA" } [] "rs1" [] none ""
    (fun p hp => absurd hp (List.not_mem_nil p)) (by decide) (by decide)
  refine ⟨h.1, ?_⟩
  have h6 := h.2.2.2.2.2.1 svcKeyA cfgDupPools (by decide)
  rw [h6]
  decide

end AppMgr
